import Mathlib

/-!
Verification of the OpenElections gap-fill pipeline
(`ingest_openelections.py`): a shallow embedding of its record
extraction, race classification, district resolution, candidate
aggregation and gap-fill merge logic, together with proofs of the
specified properties.

Scope notes on the embedding:
* All text handled by the pipeline is ASCII; Python's `str.upper`,
  `str.lower`, `str.title`, `str.strip` and the `re` patterns are
  modelled at ASCII precision.
* Python `int(float(s))` is modelled on the grammar of finite decimal
  literals (optional sign, digits, fraction, exponent, underscores
  between digits), evaluated exactly and truncated toward zero; the
  floating-point special spellings (`inf`, `nan`) are outside the
  modelled grammar.
* CSV files are modelled after the `csv.DictReader` boundary: a header
  field list plus one association list of `(field, value)` strings per
  row, with missing fields reading as the empty string.
-/

/-- ASCII whitespace recognised by Python's `str.strip` and `\s`. -/
def isPySpace (c : Char) : Bool :=
  c == ' ' || c == '\t' || c == '\n' || c == '\r' || c.toNat == 11 || c.toNat == 12

/-- Python `\w` word character (ASCII). -/
def isWordChar (c : Char) : Bool :=
  c.isAlphanum || c == '_'

/-- `str.upper()` on an ASCII string. -/
def pyUpper (s : String) : String :=
  ⟨s.data.map Char.toUpper⟩

/-- `str.lower()` on an ASCII string. -/
def pyLower (s : String) : String :=
  ⟨s.data.map Char.toLower⟩

/-- Drop trailing characters satisfying `p`. -/
def dropTrail (p : Char → Bool) (l : List Char) : List Char :=
  (l.reverse.dropWhile p).reverse

/-- `str.strip()` on a character list. -/
def pyStripL (l : List Char) : List Char :=
  dropTrail isPySpace (l.dropWhile isPySpace)

/-- `str.strip()`. -/
def pyStrip (s : String) : String :=
  ⟨pyStripL s.data⟩

/-- Is `pre` a prefix of `l` (Python `str.startswith`)? -/
def prefixOfL : List Char → List Char → Bool
  | [], _ => true
  | _ :: _, [] => false
  | a :: as, b :: bs => a == b && prefixOfL as bs

/-- Python `sub in hay` substring containment on character lists. -/
def containsL (needle : List Char) : List Char → Bool
  | [] => needle.isEmpty
  | c :: t => prefixOfL needle (c :: t) || containsL needle t

/-- Python `sub in hay` on strings. -/
def containsStr (hay sub : String) : Bool :=
  containsL sub.data hay.data

/-- Python `hay.startswith (pre)`. -/
def startsStr (hay pre : String) : Bool :=
  prefixOfL pre.data hay.data

/-- Python `hay.endswith (suf)`. -/
def endsStr (hay suf : String) : Bool :=
  prefixOfL suf.data.reverse hay.data.reverse

/-- Python string comparison (code-point lexicographic) `a < b`. -/
def pyStrLtL : List Char → List Char → Bool
  | [], [] => false
  | [], _ :: _ => true
  | _ :: _, [] => false
  | a :: as, b :: bs =>
    if a.toNat < b.toNat then true
    else if b.toNat < a.toNat then false
    else pyStrLtL as bs

/-- Python string comparison `a < b`. -/
def pyStrLt (a b : String) : Bool :=
  pyStrLtL a.data b.data

/-- Python `a <= b` on strings. -/
def pyStrLe (a b : String) : Bool :=
  pyStrLt a b || a == b

/-- Replace every occurrence of a single character (Python
`str.replace` with one-character arguments). -/
def charReplace (old new : Char) (s : String) : String :=
  ⟨s.data.map (fun c => if c == old then new else c)⟩

/-- `re.sub (r'\s+', ' ', t)`: collapse every whitespace run to one
space. `prevWs` records whether the previous character was part of a
run already collapsed. -/
def collapseWsAux (prevWs : Bool) : List Char → List Char
  | [] => []
  | c :: t =>
    if isPySpace c then
      if prevWs then collapseWsAux true t else ' ' :: collapseWsAux true t
    else c :: collapseWsAux false t

/-- `re.sub (r'\s+', ' ', t)` on a character list. -/
def collapseWsL (l : List Char) : List Char :=
  collapseWsAux false l

/-- Python `str.title()` on ASCII: uppercase every letter that follows
a non-alphabetic character, lowercase the rest. -/
def pyTitleAux (prevAlpha : Bool) : List Char → List Char
  | [] => []
  | c :: t =>
    (if prevAlpha then c.toLower else c.toUpper) :: pyTitleAux c.isAlpha t

/-- Python `str.title()`. -/
def pyTitle (s : String) : String :=
  ⟨pyTitleAux false s.data⟩

/-- Value of a list of ASCII digits read in base 10. -/
def digitsVal (ds : List Char) : Nat :=
  ds.foldl (fun n c => 10 * n + (c.toNat - 48)) 0

/-- Continue a digit group of a Python numeric literal: accept further
digits, or an underscore that is immediately followed by a digit.
Returns the digits consumed (underscores removed) and the rest. -/
def eatDigitsUAux : List Char → List Char × List Char
  | c :: t =>
    if c.isDigit then
      match eatDigitsUAux t with
      | (ds, r) => (c :: ds, r)
    else if c == '_' then
      match t with
      | d :: t' =>
        if d.isDigit then
          match eatDigitsUAux t' with
          | (ds, r) => (d :: ds, r)
        else ([], c :: t)
      | [] => ([], [c])
    else ([], c :: t)
  | [] => ([], [])

/-- Consume `digit (_? digit)*` as Python numeric literals allow:
underscores may appear singly between digits. Returns the digit
characters (underscores removed) and the remaining input, or `none`
if no leading digit is present. -/
def eatDigitsU : List Char → Option (List Char × List Char)
  | c :: t =>
    if c.isDigit then
      match eatDigitsUAux t with
      | (ds, r) => some (c :: ds, r)
    else none
  | [] => none

/-- Python `int(s)` on a string: optional surrounding whitespace, an
optional sign and a digit group. `none` models `ValueError`. -/
def pyInt (s : String) : Option Int :=
  let l := s.data.dropWhile isPySpace
  let (neg, l) :=
    match l with
    | '-' :: t => (true, t)
    | '+' :: t => (false, t)
    | _ => (false, l)
  match eatDigitsU l with
  | none => none
  | some (ds, r) =>
    if r.dropWhile isPySpace == [] then
      some (if neg then -(digitsVal ds : Int) else (digitsVal ds : Int))
    else none

/-- Exponent part of a Python float literal: optional sign and a digit
group. Returns the signed exponent and the remaining input. -/
def eatExp : List Char → Option (Int × List Char)
  | '+' :: t =>
    match eatDigitsU t with
    | some (ds, r) => some ((digitsVal ds : Int), r)
    | none => none
  | '-' :: t =>
    match eatDigitsU t with
    | some (ds, r) => some (-(digitsVal ds : Int), r)
    | none => none
  | t =>
    match eatDigitsU t with
    | some (ds, r) => some ((digitsVal ds : Int), r)
    | none => none

/-- Python `int(float(s))` for finite decimal literals: parse the
literal exactly as a rational and truncate toward zero. `none` models
`ValueError` (also raised by `float` on text outside the grammar). -/
def pyIntFloat (s : String) : Option Int :=
  let l := s.data.dropWhile isPySpace
  let (neg, l) :=
    match l with
    | '-' :: t => (true, t)
    | '+' :: t => (false, t)
    | _ => (false, l)
  let (ids, l) :=
    match eatDigitsU l with
    | some (ds, r) => (ds, r)
    | none => ([], l)
  let (fds, l) :=
    match l with
    | '.' :: t =>
      match eatDigitsU t with
      | some (ds, r) => (ds, r)
      | none => ([], t)
    | _ => ([], l)
  if ids == [] && fds == [] then none
  else
    let expPart : Option (Int × List Char) :=
      match l with
      | c :: t => if c == 'e' || c == 'E' then eatExp t else some (0, c :: t)
      | [] => some (0, [])
    match expPart with
    | none => none
    | some (e, rest) =>
      if rest.dropWhile isPySpace == [] then
        let m : Nat := digitsVal (ids ++ fds)
        let scale : Int := e - (fds.length : Int)
        let mag : Nat :=
          if 0 ≤ scale then m * 10 ^ scale.toNat else m / 10 ^ (-scale).toNat
        some (if neg then -(mag : Int) else (mag : Int))
      else none

/-- Greedy `\s*`. -/
def eatWsStar (l : List Char) : List Char :=
  l.dropWhile isPySpace

/-- Greedy `\s+` (at least one whitespace character). -/
def eatWsPlus : List Char → Option (List Char)
  | c :: t => if isPySpace c then some (t.dropWhile isPySpace) else none
  | [] => none

/-- A literal token of a regular expression. -/
def eatLit (lit : List Char) (l : List Char) : Option (List Char) :=
  if prefixOfL lit l then some (l.drop lit.length) else none

/-- Greedy `\d+` (plain digits, as in `re`). -/
def eatDigits1 (l : List Char) : Option (List Char × List Char) :=
  match l.span Char.isDigit with
  | (ds, r) => if ds.isEmpty then none else some (ds, r)

/-- An optional literal `\.?`-style token. -/
def eatOpt (c : Char) : List Char → List Char
  | d :: t => if d == c then t else d :: t
  | [] => []

/-- `0*(\d+)` with the backtracking `re` applies: the zeros are taken
greedily but at least one digit is left for the capture group. Returns
the captured digits and the remaining input. -/
def eatNumGroup (l : List Char) : Option (List Char × List Char) :=
  match l.span (fun c => c == '0') with
  | (zs, r1) =>
    match r1.span Char.isDigit with
    | (ds, r2) =>
      if ds.isEmpty then
        if zs.isEmpty then none else some (['0'], r1)
      else some (ds, r2)

/-- The last character of `l` consumed by a match that left `rest`:
the boundary context `re` uses for the next search position. -/
def lastConsumed (l rest : List Char) : Option Char :=
  (l.take (l.length - rest.length)).getLast?

/-- One `re.sub` pass: scan left to right, at each position attempt
the pattern (given the previous original character for `\b`); on a
match emit the replacement and continue after the consumed text, which
is never rescanned. Fuel bounds the recursion; every pattern used here
consumes at least one character, so `l.length` fuel is exact. -/
def subScanF (tryP : Option Char → List Char → Option (List Char × List Char)) :
    Nat → Option Char → List Char → List Char
  | 0, _, l => l
  | _ + 1, _, [] => []
  | fuel + 1, prev, c :: t =>
    match tryP prev (c :: t) with
    | some (rep, rest) => rep ++ subScanF tryP fuel (lastConsumed (c :: t) rest) rest
    | none => c :: subScanF tryP fuel (some c) t

/-- Run one `re.sub` pass over a whole character list. -/
def pySub (tryP : Option Char → List Char → Option (List Char × List Char))
    (l : List Char) : List Char :=
  subScanF tryP l.length none l

/-- `\s*\(KW\s+\d+\)` → `''` for a keyword `KW` (the `(ELECT n)` and
`(SELECT n)` annotations). -/
def tryParenKw (kw : List Char) (_prev : Option Char) (l : List Char) :
    Option (List Char × List Char) := do
  let r ← eatLit ('(' :: kw) (eatWsStar l)
  let r ← eatWsPlus r
  let (_, r) ← eatDigits1 r
  let r ← eatLit [')'] r
  pure ([], r)

/-- `\s*\(VOTE\s+(?:FOR\s+)?\d+\)` → `''`. -/
def tryVote (_prev : Option Char) (l : List Char) :
    Option (List Char × List Char) := do
  let r ← eatLit "(VOTE".data (eatWsStar l)
  let r ← eatWsPlus r
  let r :=
    match eatLit "FOR".data r with
    | some r' =>
      match eatWsPlus r' with
      | some r'' => r''
      | none => r
    | none => r
  let (_, r) ← eatDigits1 r
  let r ← eatLit [')'] r
  pure ([], r)

/-- `\s*VACANCY$` → `''` (`$` also matches just before a final
newline). -/
def tryVacancy (_prev : Option Char) (l : List Char) :
    Option (List Char × List Char) := do
  let r ← eatLit "VACANCY".data (eatWsStar l)
  if r == [] || r == ['\n'] then pure ([], r) else none

/-- `\bSCH\.?\s*DIST\.?\s*` → `'SCHOOL DISTRICT '`. -/
def trySchDist (prev : Option Char) (l : List Char) :
    Option (List Char × List Char) := do
  if (prev.map isWordChar).getD false then none else
  let r ← eatLit "SCH".data l
  let r := eatWsStar (eatOpt '.' r)
  let r ← eatLit "DIST".data r
  let r := eatWsStar (eatOpt '.' r)
  pure ("SCHOOL DISTRICT ".data, r)

/-- `\bS\.D\.\s*` → `'SCHOOL DISTRICT '`. -/
def trySD (prev : Option Char) (l : List Char) :
    Option (List Char × List Char) := do
  if (prev.map isWordChar).getD false then none else
  let r ← eatLit "S.D.".data l
  pure ("SCHOOL DISTRICT ".data, eatWsStar r)

/-- `\bELEM\.?\s*` → `'ELEMENTARY '`. -/
def tryElem (prev : Option Char) (l : List Char) :
    Option (List Char × List Char) := do
  if (prev.map isWordChar).getD false then none else
  let r ← eatLit "ELEM".data l
  pure ("ELEMENTARY ".data, eatWsStar (eatOpt '.' r))

/-- `\bSCHOOL DISTRICT\b` → `''`. -/
def trySchoolDistrict (prev : Option Char) (l : List Char) :
    Option (List Char × List Char) := do
  if (prev.map isWordChar).getD false then none else
  let r ← eatLit "SCHOOL DISTRICT".data l
  match r with
  | [] => pure ([], [])
  | c :: _ => if isWordChar c then none else pure ([], r)

/-- `\s*#\s*0*(\d+)` → `' #\1'`. -/
def tryHash (_prev : Option Char) (l : List Char) :
    Option (List Char × List Char) := do
  let r ← eatLit ['#'] (eatWsStar l)
  let (g, r) ← eatNumGroup (eatWsStar r)
  pure (' ' :: '#' :: g, r)

/-- `\s*NO\.?\s*0*(\d+)` → `' #\1'`. -/
def tryNo (_prev : Option Char) (l : List Char) :
    Option (List Char × List Char) := do
  let r ← eatLit "NO".data (eatWsStar l)
  let (g, r) ← eatNumGroup (eatWsStar (eatOpt '.' r))
  pure (' ' :: '#' :: g, r)

/-- `\s*DIST\.?\s*0*(\d+)` → `' #\1'`. -/
def tryDistNum (_prev : Option Char) (l : List Char) :
    Option (List Char × List Char) := do
  let r ← eatLit "DIST".data (eatWsStar l)
  let (g, r) ← eatNumGroup (eatWsStar (eatOpt '.' r))
  pure (' ' :: '#' :: g, r)

/-- `\s+#?\d+\s*$` → `''` (trailing district numbers). -/
def tryTrailNum (_prev : Option Char) (l : List Char) :
    Option (List Char × List Char) := do
  let r ← eatWsPlus l
  let r := eatOpt '#' r
  let (_, r) ← eatDigits1 r
  if eatWsStar r == [] then pure ([], eatWsStar r) else none

/-- The seat-type prefixes `normalize_race_name` strips, in source
order; each is tested once, sequentially. -/
def normPrefixes : List String :=
  ["GOVERNING BOARD - ", "GOVERNING BOARD, ", "GOVERNING BOARD ",
   "GOVERNING BOARD 2-YEAR TERM - ", "GOVERNING BOARD 2-YEAR TERM ",
   "BOARD MEMBER - ", "BOARD MEMBER ", "BD MEMBER ", "BRD MEMBER ",
   "SCHOOL BOARD MEMBER ", "FLORENCE BOARD MEMBER "]

/-- The seat-type suffixes `normalize_race_name` strips, in source
order. -/
def normSuffixes : List String :=
  [" BOARD MEMBER", " - BOARD MEMBER",
   "-GBM-4YR", "-GBM-2YR", "-GBM",
   " GOV BRD - 4YR", " GOV BRD - 2YR", " GOV BRD",
   ": 4-YEAR TERM", ": 2-YEAR TERM", ": 4YR", ": 2YR"]

/-- `normalize_race_name`: uppercase and strip, shed known seat-type
prefixes and suffixes, drop `(ELECT n)`-style annotations, expand the
school-district abbreviations, rewrite district-number markers to
`#n`, drop a trailing number and collapse whitespace. -/
def normalize_race_name (text : String) : String :=
  let t := pyStripL (text.data.map Char.toUpper)
  let t := normPrefixes.foldl
    (fun t p => if prefixOfL p.data t then t.drop p.data.length else t) t
  let t := normSuffixes.foldl
    (fun t s => if prefixOfL s.data.reverse t.reverse then t.take (t.length - s.data.length) else t) t
  let t := pySub (tryParenKw "ELECT".data) t
  let t := pySub (tryParenKw "SELECT".data) t
  let t := pySub tryVote t
  let t := pySub tryVacancy t
  let t := pySub trySchDist t
  let t := pySub trySD t
  let t := pySub tryElem t
  let t := pySub trySchoolDistrict t
  let t := pySub tryHash t
  let t := pySub tryNo t
  let t := pySub tryDistNum t
  let t := pySub tryTrailNum t
  ⟨pyStripL (collapseWsL t)⟩

/-- The curated fragment-to-CTDS mapping `MANUAL_CTDS_MAP`, in the
source dictionary's insertion order (the order `match_to_ctds` scans;
the source repeats the key "PIMA USD" with the same value, which a
Python dict collapses to its first position). -/
def MANUAL_CTDS_MAP : List (String × String) :=
  [ ("ST. JOHNS UNIFIED", "4153"),
    ("ST JOHNS UNIFIED", "4153"),
    ("ST. JOHN USD", "4153"),
    ("WINDOW ROCK UNIFIED", "4154"),
    ("WINDOW ROCK USD", "4154"),
    ("ROUND VALLEY UNIFIED", "4155"),
    ("ROUND VALLEY USD", "4155"),
    ("SANDERS UNIFIED", "4156"),
    ("SANDERS USD", "4156"),
    ("GANADO UNIFIED", "4157"),
    ("GANADO USD", "4157"),
    ("RED MESA UNIFIED", "4159"),
    ("RED MESA USD", "4159"),
    ("CONCHO ELEMENTARY", "4160"),
    ("CONCHO ESD", "4160"),
    ("ALPINE ELEMENTARY", "4161"),
    ("VERNON ELEMENTARY", "4162"),
    ("VERNON ESD", "4162"),
    ("MCNARY ELEMENTARY", "4163"),
    ("MC NARY ELEMENTARY", "4163"),
    ("MCNARY ESD", "4163"),
    ("CHINLE UNIFIED", "4158"),
    ("TOMBSTONE UNIFIED", "4168"),
    ("USD 68", "4168"),
    ("BISBEE UNIFIED", "4169"),
    ("BISBEE USD", "4169"),
    ("WILLCOX UNIFIED", "4170"),
    ("WILLCOX USD", "4170"),
    ("SAN SIMON UNIFIED", "4172"),
    ("SAN SIMON USD", "4172"),
    ("ST. DAVID UNIFIED", "4173"),
    ("ST DAVID UNIFIED", "4173"),
    ("ST. DAVID USD", "4173"),
    ("DOUGLAS UNIFIED", "4174"),
    ("DOUGLAS USD", "4174"),
    ("SIERRA VISTA UNIFIED", "4175"),
    ("SIERRA VISTA USD", "4175"),
    ("APACHE ELEMENTARY", "4178"),
    ("PEARCE ELEMENTARY", "4186"),
    ("BENSON UNIFIED", "79226"),
    ("BENSON USD", "79226"),
    ("FLAGSTAFF UNIFIED", "4192"),
    ("FLAGSTAFF USD", "4192"),
    ("PAGE UNIFIED", "4196"),
    ("PAGE USD", "4196"),
    ("TUBA CITY UNIFIED", "4197"),
    ("TUBA CITY USD", "4197"),
    ("SEDONA-OAK CREEK", "4467"),
    ("SEDONA OAK CREEK", "4467"),
    ("WILLIAMS UNIFIED", "4193"),
    ("GRAND CANYON UNIFIED", "4194"),
    ("FREDONIA-MOCCASIN UNIFIED", "4195"),
    ("GLOBE UNIFIED", "4208"),
    ("PAYSON UNIFIED", "4209"),
    ("SAN CARLOS UNIFIED", "4210"),
    ("HAYDEN-WINKELMAN UNIFIED", "4212"),
    ("HAYDEN WINKELMAN UNIFIED", "4212"),
    ("YOUNG ELEMENTARY", "4213"),
    ("YOUNG PUBLIC SCHOOL", "4213"),
    ("PINE-STRAWBERRY", "4214"),
    ("PINE STRAWBERRY", "4214"),
    ("TONTO BASIN", "4215"),
    ("WHITERIVER UNIFIED", "4394"),
    ("WHITERIVER USD", "4394"),
    ("MIAMI UNIFIED", "4211"),
    ("SAN CARLOS SCHOOL", "4210"),
    ("SAFFORD UNIFIED", "4218"),
    ("SAFFORD USD", "4218"),
    ("THATCHER UNIFIED", "4219"),
    ("THATCHER USD", "4219"),
    ("PIMA UNIFIED", "4220"),
    ("PIMA USD", "4220"),
    ("FORT THOMAS UNIFIED", "4221"),
    ("FT. THOMAS USD", "4221"),
    ("FT THOMAS USD", "4221"),
    ("BONITA ELEMENTARY", "4224"),
    ("BONITA ESD", "4224"),
    ("BONITA USD", "4224"),
    ("SOLOMON ELEMENTARY", "4222"),
    ("SOLOMON ESD", "4222"),
    ("AGUA FRIA UNION", "4289"),
    ("AGUA FRIA UHSD", "4289"),
    ("ALHAMBRA ESD", "4280"),
    ("ALHAMBRA ELEMENTARY", "4280"),
    ("ARLINGTON ESD", "4274"),
    ("ARLINGTON ELEMENTARY", "4274"),
    ("AVONDALE ESD", "4272"),
    ("AVONDALE ELEMENTARY", "4272"),
    ("BALSZ ESD", "4268"),
    ("BALSZ ELEMENTARY", "4268"),
    ("BUCKEYE ESD", "4269"),
    ("BUCKEYE ELEMENTARY", "4269"),
    ("BUCKEYE UHSD", "4284"),
    ("BUCKEYE UNION", "4284"),
    ("CARTWRIGHT ESD", "4282"),
    ("CARTWRIGHT ELEMENTARY", "4282"),
    ("CAVE CREEK USD", "4244"),
    ("CAVE CREEK UNIFIED", "4244"),
    ("CHANDLER USD", "4242"),
    ("CHANDLER UNIFIED", "4242"),
    ("CREIGHTON ESD", "4263"),
    ("CREIGHTON ELEMENTARY", "4263"),
    ("DEER VALLEY USD", "4246"),
    ("DEER VALLEY UNIFIED", "4246"),
    ("DYSART USD", "4243"),
    ("DYSART UNIFIED", "4243"),
    ("FOUNTAIN HILLS USD", "4247"),
    ("FOUNTAIN HILLS UNIFIED", "4247"),
    ("FOWLER ESD", "4273"),
    ("FOWLER ELEMENTARY", "4273"),
    ("GILA BEND USD", "4238"),
    ("GILA BEND UNIFIED", "4238"),
    ("GILBERT USD", "4239"),
    ("GILBERT UNIFIED", "4239"),
    ("GLENDALE ESD", "4271"),
    ("GLENDALE ELEMENTARY", "4271"),
    ("GLENDALE UHSD", "4285"),
    ("GLENDALE UNION HIGH", "4285"),
    ("HIGLEY USD", "4248"),
    ("HIGLEY UNIFIED", "4248"),
    ("ISAAC ESD", "4259"),
    ("ISAAC ELEMENTARY", "4259"),
    ("KYRENE ESD", "4267"),
    ("KYRENE ELEMENTARY", "4267"),
    ("LAVEEN ESD", "4276"),
    ("LAVEEN ELEMENTARY", "4276"),
    ("LIBERTY ESD", "4266"),
    ("LIBERTY ELEMENTARY", "4266"),
    ("LITCHFIELD ESD", "4281"),
    ("LITCHFIELD ELEMENTARY", "4281"),
    ("LITTLETON ESD", "4278"),
    ("LITTLETON ELEMENTARY", "4278"),
    ("MADISON ESD", "4270"),
    ("MADISON ELEMENTARY", "4270"),
    ("MESA USD", "4235"),
    ("MESA UNIFIED", "4235"),
    ("MORRISTOWN ESD", "4251"),
    ("MURPHY ESD", "4265"),
    ("MURPHY ELEMENTARY", "4265"),
    ("NADABURG ESD", "4252"),
    ("NADABURG USD", "4252"),
    ("OSBORN ESD", "4262"),
    ("OSBORN ELEMENTARY", "4262"),
    ("PALO VERDE ESD", "4275"),
    ("PALOMA ESD", "4255"),
    ("PARADISE VALLEY USD", "4241"),
    ("PARADISE VALLEY UNIFIED", "4241"),
    ("PARADISE VLLY USD", "4241"),
    ("PENDERGAST ESD", "4283"),
    ("PENDERGAST ELEMENTARY", "4283"),
    ("PEORIA USD", "4237"),
    ("PEORIA UNIFIED", "4237"),
    ("PHOENIX ESD", "4256"),
    ("PHOENIX ELEMENTARY", "4256"),
    ("PHOENIX UHSD", "4286"),
    ("PHOENIX UNION HIGH", "4286"),
    ("PHOENIX UNION", "4286"),
    ("QUEEN CREEK USD", "4245"),
    ("QUEEN CREEK ESD", "4245"),
    ("QUEEN CREEK UNIFIED", "4245"),
    ("RIVERSIDE ESD", "4257"),
    ("RIVERSIDE ELEMENTARY", "4257"),
    ("ROOSEVELT ESD", "4279"),
    ("ROOSEVELT ELEMENTARY", "4279"),
    ("SADDLE MOUNTAIN USD", "4254"),
    ("SADDLE MTN USD", "4254"),
    ("SCOTTSDALE USD", "4240"),
    ("SCOTTSDALE UNIFIED", "4240"),
    ("SENTINEL ESD", "4250"),
    ("TEMPE ESD", "4258"),
    ("TEMPE SCHOOL", "4258"),
    ("TEMPE UHSD", "4287"),
    ("TEMPE UNION HIGH", "4287"),
    ("TEMPE UNION", "4287"),
    ("TOLLESON ESD", "4264"),
    ("TOLLESON ELEMENTARY", "4264"),
    ("TOLLESON UHSD", "4288"),
    ("TOLLESON UNION HIGH", "4288"),
    ("UNION ESD", "4277"),
    ("UNION ELEMENTARY", "4277"),
    ("WASHINGTON ESD", "4260"),
    ("WASHINGTON ELEMENTARY", "4260"),
    ("WICKENBURG USD", "4236"),
    ("WICKENBURG UNIFIED", "4236"),
    ("WILSON ESD", "4261"),
    ("WILSON ELEMENTARY", "4261"),
    ("MARICOPA UNIFIED", "4441"),
    ("J O COMBS UNIFIED", "4445"),
    ("LAKE HAVASU UNIFIED", "4368"),
    ("LAKE HAVASU USD", "4368"),
    ("COLORADO CITY UNIFIED", "4370"),
    ("COLORADO CITY USD", "4370"),
    ("HACKBERRY ELEMENTARY", "4371"),
    ("HACKBERRY ESD", "4371"),
    ("TOPOCK ELEMENTARY", "4376"),
    ("TOPOCK ESD", "4376"),
    ("MOHAVE VALLEY ELEMENTARY", "4379"),
    ("VALENTINE ELEMENTARY", "4380"),
    ("VALENTINE ESD", "4380"),
    ("KINGMAN UNIFIED", "79598"),
    ("KINGMAN USD", "79598"),
    ("KUSD", "79598"),
    ("BULLHEAD CITY", "4378"),
    ("COLORADO RIVER UNION HIGH", "4381"),
    ("COLORADO RIVER UHSD", "4381"),
    ("CO RIVER UNION HS", "4381"),
    ("CRUHSD", "4381"),
    ("CCUSD", "4370"),
    ("LHUSD", "4368"),
    ("FMUSD", "4379"),
    ("KINGMAN US DIST", "79598"),
    ("LAKE HAVASU US DIST", "4368"),
    ("BLUE RIDGE UNIFIED", "4397"),
    ("BLUE RIDGE USD", "4397"),
    ("HEBER-OVERGAARD UNIFIED", "4392"),
    ("HEBER/OVERGAARD USD", "4392"),
    ("HEBER OVERGAARD", "4392"),
    ("KAYENTA UNIFIED", "4396"),
    ("KAYENTA USD", "4396"),
    ("PINON UNIFIED", "4390"),
    ("PINON USD", "4390"),
    ("SHOW LOW UNIFIED", "4393"),
    ("SHOW LOW USD", "4393"),
    ("WINSLOW UNIFIED", "4387"),
    ("WINSLOW USD", "4387"),
    ("SNOWFLAKE UNIFIED", "4391"),
    ("SNOWFLAKE USD", "4391"),
    ("HOLBROOK UNIFIED", "4389"),
    ("JOSEPH CITY UNIFIED", "4388"),
    ("BOARD MEMBER KAYENTA", "4396"),
    ("BOARD MEMBER PINON", "4390"),
    ("BOARD MEMBER SHOW LOW", "4393"),
    ("BOARD MEMBER WINSLOW", "4387"),
    ("BOARD MEMBER GLOBE", "4208"),
    ("TUCSON UNIFIED", "4403"),
    ("TUCSON USD", "4403"),
    ("MARANA UNIFIED", "4404"),
    ("MARANA USD", "4404"),
    ("FLOWING WELLS UNIFIED", "4405"),
    ("AMPHITHEATER UNIFIED", "4406"),
    ("SUNNYSIDE UNIFIED", "4407"),
    ("TANQUE VERDE UNIFIED", "4408"),
    ("AJO UNIFIED", "4409"),
    ("CATALINA FOOTHILLS UNIFIED", "4410"),
    ("CATALINA FOOTHILLS", "4410"),
    ("SAHUARITA UNIFIED", "4411"),
    ("BABOQUIVARI", "4412"),
    ("BABOQUIVARI SCHOOL", "4412"),
    ("VAIL UNIFIED", "4413"),
    ("CONTINENTAL ELEMENTARY", "4416"),
    ("ALTAR VALLEY", "4418"),
    ("ALTAR VALLEY ESD", "4418"),
    ("APACHE JUNCTION UNIFIED", "4443"),
    ("CASA GRANDE UNION HIGH", "4453"),
    ("CASA GRANDE UHSD", "4453"),
    ("COOLIDGE UNIFIED", "4442"),
    ("ELOY ELEMENTARY", "4448"),
    ("FLORENCE UNIFIED", "4437"),
    ("SACATON ELEMENTARY", "4449"),
    ("SUPERIOR UNIFIED", "4440"),
    ("TOLTEC ELEMENTARY", "4450"),
    ("TOLTEC SCHOOL", "4450"),
    ("SANTA CRUZ VALLEY UNION HIGH", "4454"),
    ("ORACLE ELEMENTARY", "4444"),
    ("RAY UNIFIED", "4438"),
    ("STANFIELD ELEMENTARY", "4451"),
    ("PICACHO ELEMENTARY", "4452"),
    ("NOGALES UNIFIED", "4457"),
    ("NUSD", "4457"),
    ("BOARD MEMBER USD 1", "4457"),
    ("SANTA CRUZ VALLEY UNIFIED", "4458"),
    ("SCV", "4458"),
    ("SONOITA ELEMENTARY", "4461"),
    ("SCE", "4461"),
    ("SANTA CRUZ ELEMENTARY", "4459"),
    ("BAGDAD UNIFIED", "4468"),
    ("BAGDAD USD", "4468"),
    ("HUMBOLDT UNIFIED", "4469"),
    ("HUMBOLDT USD", "4469"),
    ("SELIGMAN UNIFIED", "4472"),
    ("SELIGMAN USD", "4472"),
    ("YARNELL ELEMENTARY", "4485"),
    ("YARNELL ESD", "4485"),
    ("PRESCOTT UNIFIED", "4466"),
    ("PRESCOTT USD", "4466"),
    ("CHINO VALLEY UNIFIED", "4474"),
    ("CHINO VALLEY USD", "4474"),
    ("CAMP VERDE UNIFIED", "4470"),
    ("CAMP VERDE USD", "4470"),
    ("MAYER UNIFIED", "4473"),
    ("MAYER USD", "4473"),
    ("CONGRESS ELEMENTARY", "4479"),
    ("CONGRESS ESD", "4479"),
    ("CANON ELEMENTARY", "4484"),
    ("CANON ESD", "4484"),
    ("KIRKLAND ELEMENTARY", "4480"),
    ("KIRKLAND ESD", "4480"),
    ("CLARKDALE-JEROME ELEMENTARY", "4486"),
    ("CLARKDALE-JEROME ESD", "4486"),
    ("COTTONWOOD-OAK CREEK ELEMENTARY", "4487"),
    ("COTTONWOOD-OAK CREEK ESD", "4487"),
    ("MINGUS UNION HIGH", "4488"),
    ("SEDONA-OAK CREEK JUSD", "4467"),
    ("SEDONA-OAK CREEK JOINT USD", "4467"),
    ("YUMA ELEMENTARY", "4499"),
    ("SOMERTON ELEMENTARY", "4500"),
    ("CRANE ELEMENTARY", "4501"),
    ("GADSDEN ELEMENTARY", "4505"),
    ("GADSDEN ESD", "4505"),
    ("YUMA UNION HIGH", "4507"),
    ("YUMA UHSD", "4507"),
    ("MOHAWK VALLEY ELEMENTARY", "4503"),
    ("ANTELOPE UNION HIGH", "4506"),
    ("ANTELOPE UNION HSD", "4506") ]

/-- Scan `MANUAL_CTDS_MAP` in order and return the CTDS of the first
entry whose key fragment is contained in `text`. -/
def scanMap (text : List Char) : Option String :=
  MANUAL_CTDS_MAP.foldr
    (fun kv acc => if containsL kv.1.data text then some kv.2 else acc) none

/-- The per-text trial `match_to_ctds` runs for each candidate text:
raw uppercased containment first, then containment after
`normalize_race_name`; the first text that matches wins. -/
def tryTexts : List String → Option String
  | [] => none
  | t :: rest =>
    match scanMap (pyStripL (t.data.map Char.toUpper)) with
    | some c => some c
    | none =>
      match scanMap (normalize_race_name t).data with
      | some c => some c
      | none => tryTexts rest

/-- `match_to_ctds`: resolve an OpenElections race to a CTDS ID.
Tries, in source order: the stripped district text (when the district
is nonempty), the office text, their `" - "` concatenation — each raw
then normalized — and finally the uppercased `office + " " + district`
with pipes replaced by spaces and whitespace collapsed, raw then
normalized. The `county` argument is accepted and, as in the source,
never used. -/
def match_to_ctds (office district county : String) : Option String :=
  let _ := county
  let distOk := district ≠ "" && pyStrip district ≠ ""
  let texts :=
    (if distOk then [pyStrip district] else []) ++
    [pyStrip office] ++
    (if distOk then [pyStrip office ++ " - " ++ pyStrip district] else [])
  match tryTexts texts with
  | some c => some c
  | none =>
    let combined := pyStrip (charReplace '|' ' ' (pyUpper (office ++ " " ++ district)))
    let combined : String := ⟨collapseWsL combined.data⟩
    match scanMap combined.data with
    | some c => some c
    | none =>
      match scanMap (normalize_race_name combined).data with
      | some c => some c
      | none => none

/-- Does any fragment of `ks` occur in `txt`? -/
def anyKeyIn (ks : List String) (txt : List Char) : Bool :=
  ks.any (fun k => containsL k.data txt)

/-- Disqualifying keywords of `is_school_board_race` (questions,
bonds, overrides, …). -/
def excludeKw1 : List String :=
  ["QUESTION", "PROPOSITION", "BOND", "OVERRIDE", "BUDGET",
   "SALE", "LEASE", "JTED", "CAPITAL IMPROV", "REORGANIZATION",
   "DISTRICT ADDITIONAL ASSISTANCE", "MAIN. & OPERATIONS",
   "RECALL", "REFERENDUM"]

/-- Governing-board keywords of `is_school_board_race`. -/
def boardKeywords : List String :=
  ["GOVERNING BOARD", "GBM", "GOV BRD", "BOARD MEMBER",
   "BD MEMBER", "BRD MEMBER", "SCHOOL BOARD"]

/-- District-type keywords of `is_school_board_race`. -/
def districtKeywords : List String :=
  ["ESD", "USD", "UHSD", "SCHOOL DIST", "S.D.", "UNIFIED"]

/-- Non-school-board-entity keywords of `is_school_board_race` (fire,
water, hospital, college districts, …). -/
def excludeKw2 : List String :=
  ["FIRE", "WATER", "SANITARY", "HOSPITAL", "COMMUNITY COLLEGE",
   "CAWCD", "DWID", "SANITATION", "DOMESTIC WATER",
   "PIMA COMMUNITY", "PINAL COUNTY COMM", "COCHISE COLLEGE",
   "NORTHLAND PIONEER", "EAST VALLEY INSTITUTE",
   "CENTRAL ARIZONA VALLEY INSTITUTE", "MCCD",
   "ARIZONA CITY", "POMERENE WATER", "RIM TRAIL"]

/-- Seat-selection markers of `is_school_board_race`. -/
def seatMarkers : List String :=
  ["ELECT", "SELECT", "VOTE FOR", "4-YEAR", "2-YEAR", "4YR", "2YR"]

/-- `is_school_board_race`: is this office/district text a school
governing-board member election? Mirrors the source's layered rule:
disqualifying keywords reject; a governing-board keyword accepts
unless a non-school-entity keyword is present; otherwise a
district-type keyword accepts when a seat marker is present or the
text resolves through `match_to_ctds`; a pipe-delimited variant is
retried with `|` replaced by a space. -/
def is_school_board_race (office district : String) : Bool :=
  let combined := (office ++ " " ++ district).data.map Char.toUpper
  if anyKeyIn excludeKw1 combined then false
  else if anyKeyIn boardKeywords combined then !anyKeyIn excludeKw2 combined
  else
    let pipeBranch :=
      let combinedPipe := combined.map (fun c => if c == '|' then ' ' else c)
      anyKeyIn districtKeywords combinedPipe && (match_to_ctds office district "").isSome
    if anyKeyIn districtKeywords combined then
      anyKeyIn seatMarkers combined || (match_to_ctds office district "").isSome || pipeBranch
    else pipeBranch

/-- The closed set of exact metadata labels `is_metadata_row` skips. -/
def metaSkipValues : List String :=
  ["REGISTERED VOTERS", "BALLOTS CAST", "BALLOTS CAST BLANK",
   "TOTAL VOTES", "UNDER VOTE", "OVER VOTE", "UNDERVOTE", "OVERVOTE",
   "WRITE-IN TOTALS", "WRITE-INS", "WRITE IN", "WRITE-IN",
   "NUMBER OF PRECINCTS", "NUMBER OF PRECINCTS FOR RACE",
   "NUMBER OF PRECINCTS REPORTING", "TIMES COUNTED",
   "NO OFFICIAL CANDIDATE"]

/-- `is_metadata_row`: is this candidate label a precinct metadata or
aggregate row rather than a real candidate? -/
def is_metadata_row (candidate : String) : Bool :=
  let upper := pyStrip (pyUpper candidate)
  metaSkipValues.contains upper
  || startsStr upper "TOTAL" || startsStr upper "UNDER " || startsStr upper "OVER "
  || startsStr upper "WRITE-IN" || startsStr upper "WRITE IN"
  || containsStr upper "TURNOUT" || containsStr upper "REGISTERED"

/-- A field value of a precinct-record dict: the source stores either
a CSV string or a Python int in the vote-method sub-total fields. -/
inductive FieldVal where
  | s (v : String)
  | i (v : Int)
deriving DecidableEq, Repr

/-- A `PrecinctVoteRecord`: the standardized dict `extract_records`
emits for one precinct-level row. -/
structure Rec where
  county : String
  office : String
  district : String
  candidate : String
  party : String
  total_votes : Int
  early_voting : FieldVal
  election_day : FieldVal
  provisional : FieldVal
deriving DecidableEq, Repr

/-- A row after the `csv.DictReader` boundary, keyed by the original
header names. -/
abbrev Row := List (String × String)

/-- `row.get (k, '')`. -/
def rget (row : Row) (k : String) : String :=
  (row.lookup k).getD ""

/-- `try: v = int(float(votes)) except (ValueError, TypeError): v = 0`. -/
def pyVotes (s : String) : Int :=
  (pyIntFloat s).getD 0

/-- The 2014 Maricopa layout (`contest_name`/`choice_name`/
`vote_total`). -/
def extractRows1 (rows : List Row) (county_name : String) : List Rec :=
  rows.flatMap (fun row =>
    let contest := rget row "contest_name"
    let candidate := rget row "choice_name"
    let votes := rget row "vote_total"
    if !is_school_board_race contest "" then []
    else if is_metadata_row candidate then []
    else
      let v := pyVotes votes
      if v ≤ 0 then []
      else [{ county := county_name, office := contest, district := "",
              candidate := candidate, party := "", total_votes := v,
              early_voting := .s "", election_day := .s "",
              provisional := .s "" }])

/-- The 2014 Yavapai layout (`contesttitle`/`candidate name`/`votes`/
`votetype`): sub-totals are distributed by vote-type letter. -/
def extractRows2 (rows : List Row) (county_name : String) : List Rec :=
  rows.flatMap (fun row =>
    let contest := rget row "contesttitle"
    let candidate := rget row "candidate name"
    let votes := rget row "votes"
    let votetype := rget row "votetype"
    if !is_school_board_race contest "" then []
    else if is_metadata_row candidate then []
    else
      let v := pyVotes votes
      if v ≤ 0 then []
      else [{ county := county_name, office := contest, district := "",
              candidate := candidate, party := rget row "party name",
              total_votes := v,
              early_voting := .i (if votetype == "C" then v else 0),
              election_day := .i (if votetype == "E" || votetype == "P" then v else 0),
              provisional := .i (if votetype == "A" then v else 0) }])

/-- The 2014 standard layout (`race`/`race_id`/`candidate`/`count`):
pseudo-candidate ids at or above 999990 are skipped. -/
def extractRows3 (rows : List Row) (county_name : String) : List Rec :=
  rows.flatMap (fun row =>
    let race := rget row "race"
    let candidate := rget row "candidate"
    let count := rget row "count"
    let cand_id := rget row "candidate_id"
    let idSkip : Bool :=
      match pyInt cand_id with
      | some n => decide (999990 ≤ n)
      | none => false
    if idSkip then []
    else if !is_school_board_race race "" then []
    else if is_metadata_row candidate then []
    else
      let v := pyVotes count
      if v ≤ 0 then []
      else [{ county := county_name, office := race, district := "",
              candidate := candidate, party := "", total_votes := v,
              early_voting := .s "", election_day := .s "",
              provisional := .s "" }])

/-- The 2014 Pinal layout as written in the source: its guarding
condition duplicates the first branch's, so this arm is unreachable,
but it is embedded as written. -/
def extractRows4 (fields : List String) (rows : List Row)
    (county_name : String) : List Rec :=
  let cn_field := ((fields.find? (fun f => pyLower f == "contest_name")).getD "")
  let ch_field := ((fields.find? (fun f => pyLower f == "choice_name")).getD "")
  let vt_field := ((fields.find? (fun f => pyLower f == "vote_total")).getD "")
  rows.flatMap (fun row =>
    let contest := rget row cn_field
    let candidate := rget row ch_field
    let votes := rget row vt_field
    if !is_school_board_race contest "" then []
    else if is_metadata_row candidate then []
    else
      let v := pyVotes votes
      if v ≤ 0 then []
      else [{ county := county_name, office := contest, district := "",
              candidate := candidate, party := rget row "party_name",
              total_votes := v,
              early_voting := .s (rget row "early_votes"),
              election_day := .s (rget row "polling_place_votes"),
              provisional := .s (rget row "provisional_votes") }])

/-- The 2016–2024 standard layout (`office`/`district`/`candidate`/
`party`/`votes` plus sub-total columns). -/
def extractRows5 (rows : List Row) (county_name : String) : List Rec :=
  rows.flatMap (fun row =>
    let office := rget row "office"
    let district := rget row "district"
    let candidate := rget row "candidate"
    let party := rget row "party"
    let votes := rget row "votes"
    if !is_school_board_race office district then []
    else if is_metadata_row candidate then []
    else
      let v := pyVotes votes
      if v ≤ 0 then []
      else [{ county := county_name, office := office, district := district,
              candidate := candidate, party := party, total_votes := v,
              early_voting := .s (rget row "early_voting"),
              election_day := .s (rget row "election_day"),
              provisional := .s (rget row "provisional") }])

/-- `extract_records`: dispatch on the lower-cased header field set to
one of the known schema fingerprints, in source order, and extract the
school-board precinct records; an unknown layout yields no records.
The source function also receives the year and a lower-cased county
name and uses neither. -/
def extract_records (fields : List String) (rows : List Row)
    (county_name : String) : List Rec :=
  if fields.isEmpty then []
  else
    let fl := fields.map pyLower
    if fl.contains "contest_name" then extractRows1 rows county_name
    else if fl.contains "contesttitle" then extractRows2 rows county_name
    else if fl.contains "race" && fl.contains "race_id" then
      extractRows3 rows county_name
    else if fl.contains "contest_name" then
      extractRows4 fields rows county_name
    else if fl.contains "office" then extractRows5 rows county_name
    else []

/-- Accumulated totals of one aggregation group. -/
structure Totals where
  tv : Int
  ev : Int
  ed : Int
  pr : Int
deriving DecidableEq, Repr

/-- The aggregation grouping key: (county, office, district,
candidate, party), compared by exact string equality. -/
abbrev AggKey := String × String × String × String × String

/-- The grouping key of a record. -/
def aggKey (r : Rec) : AggKey :=
  (r.county, r.office, r.district, r.candidate, r.party)

/-- The integer a sub-total field contributes to its group's sum:
`int(float(x)) if x else 0`, with a parse failure adding nothing
(the source's `except ... pass`). -/
def fvAdd : FieldVal → Int
  | .i n => n
  | .s str => if str == "" then 0 else (pyIntFloat str).getD 0

/-- The totals contributed by a single record. -/
def totOf (r : Rec) : Totals :=
  ⟨r.total_votes, fvAdd r.early_voting, fvAdd r.election_day,
   fvAdd r.provisional⟩

/-- Componentwise addition of totals. -/
def addTot (a b : Totals) : Totals :=
  ⟨a.tv + b.tv, a.ev + b.ev, a.ed + b.ed, a.pr + b.pr⟩

/-- Merge one record into the accumulator, preserving first-insertion
key order: the association-list rendering of
`agg[key][field] += val` on a `defaultdict`. -/
def aggUpsert : List (AggKey × Totals) → Rec → List (AggKey × Totals)
  | [], r => [(aggKey r, totOf r)]
  | (k, t) :: rest, r =>
    if k = aggKey r then (k, addTot t (totOf r)) :: rest
    else (k, t) :: aggUpsert rest r

/-- The accumulation pass of `aggregate_to_candidates`. -/
def aggPass (recs : List Rec) : List (AggKey × Totals) :=
  recs.foldl aggUpsert []

/-- Insert into a sorted list (ascending by `le`). -/
def insSorted (le : α → α → Bool) (a : α) : List α → List α
  | [] => [a]
  | b :: t => if le a b then a :: b :: t else b :: insSorted le a t

/-- Insertion sort. On a list with pairwise-distinct keys under a
total order this equals Python's `sorted`. -/
def sortByLe (le : α → α → Bool) (l : List α) : List α :=
  l.foldr (insSorted le) []

/-- Python tuple comparison on grouping keys: lexicographic by
code-point string order. -/
def aggKeyLe (x y : AggKey) : Bool :=
  pyStrLt x.1 y.1 ||
  (x.1 == y.1 && (pyStrLt x.2.1 y.2.1 ||
  (x.2.1 == y.2.1 && (pyStrLt x.2.2.1 y.2.2.1 ||
  (x.2.2.1 == y.2.2.1 && (pyStrLt x.2.2.2.1 y.2.2.2.1 ||
  (x.2.2.2.1 == y.2.2.2.1 && pyStrLe x.2.2.2.2 y.2.2.2.2)))))))

/-- A `CandidateAggregate`: one candidate's totals for one group. A
sub-total is `none` exactly where the source writes `''` (its
`if vals[field] > 0 else ''` rendering). -/
structure Cand where
  county : String
  office : String
  district : String
  candidate : String
  party : String
  total_votes : Int
  early_voting : Option Int
  election_day : Option Int
  provisional : Option Int
deriving DecidableEq, Repr

/-- The item order of `sorted(agg.items())`: key tuples are compared
first and the keys of a dict are pairwise distinct, so the values are
never compared. -/
def aggItemLe (x y : AggKey × Totals) : Bool :=
  aggKeyLe x.1 y.1

/-- The aggregate `aggregate_to_candidates` emits for one group: the
loop body appending one result dict, with non-positive sub-totals
blanked. -/
def candOfItem (k : AggKey) (t : Totals) : Cand :=
  { county := k.1, office := k.2.1, district := k.2.2.1,
    candidate := k.2.2.2.1, party := k.2.2.2.2,
    total_votes := t.tv,
    early_voting := if t.ev > 0 then some t.ev else none,
    election_day := if t.ed > 0 then some t.ed else none,
    provisional := if t.pr > 0 then some t.pr else none }

/-- `aggregate_to_candidates`: accumulate precinct records by group
key, then emit one aggregate per group in sorted key order. -/
def aggregate_to_candidates (recs : List Rec) : List Cand :=
  (sortByLe aggItemLe (aggPass recs)).map (fun kt => candOfItem kt.1 kt.2)

/-- `COUNTY_DISPLAY`: lower-case county slug to display name. -/
def COUNTY_DISPLAY : List (String × String) :=
  [ ("apache", "Apache"), ("cochise", "Cochise"), ("coconino", "Coconino"),
    ("gila", "Gila"), ("graham", "Graham"), ("greenlee", "Greenlee"),
    ("la_paz", "La Paz"), ("maricopa", "Maricopa"), ("mohave", "Mohave"),
    ("navajo", "Navajo"), ("pima", "Pima"), ("pinal", "Pinal"),
    ("santa_cruz", "Santa Cruz"), ("yavapai", "Yavapai"), ("yuma", "Yuma") ]

/-- `COUNTY_DISPLAY.get(county_lower, county_lower.title())`. -/
def countyDisplay (county_lower : String) : String :=
  (COUNTY_DISPLAY.lookup county_lower).getD (pyTitle county_lower)

/-- `ELECTION_DATES`. -/
def ELECTION_DATES : List (Nat × String) :=
  [ (2014, "2014-11-04"), (2016, "2016-11-08"), (2018, "2018-11-06"),
    (2020, "2020-11-03"), (2022, "2022-11-08"), (2024, "2024-11-05") ]

/-- `ELECTION_DATES[year]`; the pipeline only ever looks up the six
configured years. -/
def electionDate (y : Nat) : String :=
  (ELECTION_DATES.lookup y).getD ""

/-- The configured election years the Plan step iterates. -/
def electionYears : List Nat :=
  [2014, 2016, 2018, 2020, 2022, 2024]

/-- One row of the authoritative master table, restricted to the
columns `main` reads (`ctds_id`, `year`, `county`,
`school_district`). -/
structure MasterRow where
  ctds_id : String
  year : String
  county : String
  school_district : String
deriving DecidableEq, Repr

/-- `str(int(float(x)))`: the canonical form of an identifier or year
column value. -/
def canonNum (s : String) : Option String :=
  (pyIntFloat s).map toString

/-- The state `main` loads from the master table: the filled
(identifier, year) pair set (as a membership list), the identifier to
county map and the identifier to observed-display-names map. -/
structure LoadState where
  pairs : List (String × String)
  county : List (String × String)
  names : List (String × List String)
deriving DecidableEq, Repr

/-- Dict assignment on an association list: update the first entry in
place or append a new one, as a Python dict does. -/
def upsertAssoc : List (String × String) → String → String → List (String × String)
  | [], k, v => [(k, v)]
  | (k', v') :: rest, k, v =>
    if k' == k then (k, v) :: rest else (k', v') :: upsertAssoc rest k v

/-- `ctds_names[ctds].add(name)` on an association list of sets
(rendered as duplicate-free lists in insertion order). -/
def addName : List (String × List String) → String → String → List (String × List String)
  | [], k, v => [(k, [v])]
  | (k', vs) :: rest, k, v =>
    if k' == k then (k', if vs.contains v then vs else vs ++ [v]) :: rest
    else (k', vs) :: addName rest k v

/-- The first load pass: collect the `(canonical ctds, canonical
year)` pair of every row with a non-empty `ctds_id`. `none` models the
uncaught `ValueError` a malformed numeric column raises. -/
def loadPairs (rows : List MasterRow) : Option (List (String × String)) :=
  rows.foldlM (fun acc r =>
    if r.ctds_id ≠ "" then do
      let c ← pyIntFloat r.ctds_id
      let y ← pyIntFloat r.year
      pure (acc ++ [(toString c, toString y)])
    else pure acc) []

/-- The second load pass: map each identifier to its county (last row
wins) and accumulate its observed school-district display names, over
rows with non-empty `ctds_id` and `county`. -/
def loadCounty (rows : List MasterRow) :
    Option (List (String × String) × List (String × List String)) :=
  rows.foldlM (fun acc r =>
    if r.ctds_id ≠ "" && r.county ≠ "" then do
      let c ← pyIntFloat r.ctds_id
      pure (upsertAssoc acc.1 (toString c) r.county,
            addName acc.2 (toString c) r.school_district)
    else pure acc) ([], [])

/-- The Load phase of `main`. -/
def loadMaster (rows : List MasterRow) : Option LoadState := do
  let pairs ← loadPairs rows
  let cn ← loadCounty rows
  pure ⟨pairs, cn.1, cn.2⟩

/-- The keys of an association list. -/
def assocKeys (m : List (String × String)) : List String :=
  m.map (fun e => e.1)

/-- Association-list lookup with `''` default. -/
def lookupD (m : List (String × String)) (k : String) : String :=
  (m.lookup k).getD ""

/-- `county.lower().replace(' ', '_')`. -/
def lowRepl (s : String) : String :=
  charReplace ' ' '_' (pyLower s)

/-- First-occurrence deduplication (the key set of a Python dict built
by repeated insertion). -/
def dedupFirst [DecidableEq α] : List α → List α
  | [] => []
  | a :: t => a :: (dedupFirst t).filter (fun b => b ≠ a)

/-- The Plan phase: every `(county_lower, year)` unit owning at least
one identifier whose `(identifier, year)` pair is missing from the
filled set. -/
def gapList (L : LoadState) : List (String × Nat) :=
  dedupFirst ((assocKeys L.county).flatMap (fun c =>
    let county := lookupD L.county c
    if county == "" then []
    else electionYears.filterMap (fun y =>
      if L.pairs.contains (c, toString y) then none
      else some (lowRepl county, y))))

/-- Python tuple order on `(county_lower, year)` gap keys. -/
def gapKeyLe (a b : String × Nat) : Bool :=
  pyStrLt a.1 b.1 || (a.1 == b.1 && a.2 ≤ b.2)

/-- The sorted gap keys `main` iterates. -/
def sortedGapKeys (L : LoadState) : List (String × Nat) :=
  sortByLe gapKeyLe (gapList L)

/-- The identifiers still needed for one `(county_lower, year)` unit:
`gaps_by_county_year[(county_lower, year)]` as a membership list. -/
def neededCtds (L : LoadState) (cl : String) (y : Nat) : List String :=
  (assocKeys L.county).filter (fun c =>
    lookupD L.county c ≠ "" && lowRepl (lookupD L.county c) == cl &&
    !(L.pairs.contains (c, toString y)))

/-- `ccd_districts.get(ctds, {}).get('lea_name', '')`; the canonical
cross-reference directory is an input file, modelled as a map from
identifier to `(lea_name, leaid)`. -/
def ccdLeaName (ccd : String → Option (String × String)) (c : String) : String :=
  match ccd c with
  | some info => info.1
  | none => ""

/-- `ccd_districts.get(ctds, {}).get('leaid', '')`. -/
def ccdLeaid (ccd : String → Option (String × String)) (c : String) : String :=
  match ccd c with
  | some info => info.2
  | none => ""

/-- `matched[ctds].append(cand)`: append under an existing key or add
the key at the end (`defaultdict(list)` insertion order). -/
def appendMatched : List (String × List Cand) → String → Cand → List (String × List Cand)
  | [], c, cand => [(c, [cand])]
  | (k, cs) :: rest, c, cand =>
    if k == c then (k, cs ++ [cand]) :: rest
    else (k, cs) :: appendMatched rest c cand

/-- The Execute matching loop: resolve each aggregate and accumulate
it under its identifier when that identifier is still needed; an
aggregate resolving elsewhere (already filled, or another county's
district) adds nothing. -/
def buildMatched (cands : List Cand) (needed : List String) (cd : String) :
    List (String × List Cand) :=
  cands.foldl (fun m cand =>
    match match_to_ctds cand.office cand.district cd with
    | some c => if c ≠ "" && needed.contains c then appendMatched m c cand else m
    | none => m) []

/-- One staged output row, restricted to the fields `main` assigns
(every other master column is written blank). -/
structure StagedRow where
  year : String
  election_date : String
  election_type : String
  county : String
  school_district : String
  ctds_id : String
  nces_leaid : String
  ccd_lea_name : String
  district : String
  office : String
  candidate : String
  party : String
  total_votes : String
  early_voting : String
  election_day : String
  provisional : String
  winner : String
  num_precincts : String
deriving DecidableEq, Repr

/-- A longest element of the accumulated display-name list, favouring
the latest among equal lengths (Python takes
`sorted(names, key=len)[-1]` over an unordered set, so its tie order
among equal-length names is unspecified; every choice is a longest
name). -/
def longestName (l : List String) : String :=
  l.foldl (fun acc s => if acc.length ≤ s.length then s else acc) ""

/-- The Materialize step's row synthesis for one candidate aggregate
of one filled identifier. -/
def mkRow (L : LoadState) (ccd : String → Option (String × String))
    (cl : String) (y : Nat) (c : String) (cand : Cand) : StagedRow :=
  let lea_name := ccdLeaName ccd c
  let leaid := ccdLeaid ccd c
  let nameSet := (L.names.lookup c).getD []
  { year := toString y ++ ".0",
    election_date := electionDate y,
    election_type := "general",
    county := countyDisplay cl,
    school_district := if nameSet ≠ [] then longestName nameSet else lea_name,
    ctds_id := c ++ ".0",
    nces_leaid := if leaid ≠ "" then leaid ++ ".0" else "",
    ccd_lea_name := lea_name,
    district := "",
    office := if cand.district ≠ "" then cand.office ++ " - " ++ cand.district
              else cand.office,
    candidate := cand.candidate,
    party := cand.party,
    total_votes := toString cand.total_votes ++ ".0",
    early_voting :=
      match cand.early_voting with
      | some v => if v == 0 then "" else toString v ++ ".0"
      | none => "",
    election_day :=
      match cand.election_day with
      | some v => if v == 0 then "" else toString v ++ ".0"
      | none => "",
    provisional :=
      match cand.provisional with
      | some v => if v == 0 then "" else toString v ++ ".0"
      | none => "",
    winner := "",
    num_precincts := "" }

/-- One `MatchLogEntry` of the audit log. -/
structure LogEntry where
  ctds : String
  year : Nat
  county : String
  lea_name : String
  n_candidates : Nat
deriving DecidableEq, Repr

/-- A per-county-year source file at the `csv.DictReader` boundary:
header fields and rows. -/
abbrev SrcFile := List String × List Row

/-- Processing of one gap key in the Execute/Materialize loop: fetch
the source (a `none` download, like an empty one, is a skip), extract
and aggregate, match against the needed identifiers, and synthesize
rows, filled pairs and log entries for each matched identifier whose
pair survives the final `existing_pairs` safety check. -/
def processKey (L : LoadState) (ccd : String → Option (String × String))
    (src : String → Nat → Option SrcFile) (cl : String) (y : Nat) :
    List StagedRow × List (String × String) × List LogEntry :=
  match src cl y with
  | none => ([], [], [])
  | some file =>
    let cd := countyDisplay cl
    let precinct := extract_records file.1 file.2 cd
    if precinct.isEmpty then ([], [], [])
    else
      let cands := aggregate_to_candidates precinct
      let matched := buildMatched cands (neededCtds L cl y) cd
      ( matched.flatMap (fun e =>
          if L.pairs.contains (e.1, toString y) then []
          else e.2.map (mkRow L ccd cl y e.1))
      , matched.flatMap (fun e =>
          if L.pairs.contains (e.1, toString y) then []
          else [(e.1, toString y)])
      , matched.flatMap (fun e =>
          if L.pairs.contains (e.1, toString y) then []
          else [⟨e.1, y, cd, ccdLeaName ccd e.1, e.2.length⟩]) )

/-- The outputs of one pipeline run: the staged new rows, the filled
(identifier, year) pairs and the match log. The authoritative table is
read-only input; these are the run's only products. -/
structure RunResult where
  newRows : List StagedRow
  filledPairs : List (String × String)
  matchDetails : List LogEntry
deriving DecidableEq, Repr

/-- The Plan/Execute/Materialize phases over an already-loaded state:
iterate the sorted gap keys and concatenate each key's staged rows,
filled pairs and log entries (the `filled_pairs` set is only written,
never read, during the loop, so the iteration is a pure
concatenation). -/
def pipelineFromLoad (L : LoadState) (ccd : String → Option (String × String))
    (src : String → Nat → Option SrcFile) : RunResult :=
  { newRows := (sortedGapKeys L).flatMap (fun k => (processKey L ccd src k.1 k.2).1)
  , filledPairs := (sortedGapKeys L).flatMap (fun k => (processKey L ccd src k.1 k.2).2.1)
  , matchDetails := (sortedGapKeys L).flatMap (fun k => (processKey L ccd src k.1 k.2).2.2) }

/-- The whole Merge Engine run (`main` without its printing): load the
master table, then plan, execute and materialize. `none` models the
load-phase exception on a malformed master numeric column. -/
def runPipeline (master : List MasterRow) (ccd : String → Option (String × String))
    (src : String → Nat → Option SrcFile) : Option RunResult :=
  (loadMaster master).map (fun L => pipelineFromLoad L ccd src)

/-- The resolver trial order as the specification phrases it, written
from the spec's words for comparison with the source's
`match_to_ctds`: containment is tested against the raw district text,
the raw office text and the raw office+district concatenation, and
only then against each of those three texts after normalization; the
first containment match wins. -/
def matchSpecClaimed (office district : String) : Option String :=
  let distOk := district ≠ "" && pyStrip district ≠ ""
  let texts :=
    (if distOk then [pyStrip district] else []) ++
    [pyStrip office] ++
    (if distOk then [pyStrip office ++ " - " ++ pyStrip district] else [])
  match texts.findSome? (fun t => scanMap (pyStripL (t.data.map Char.toUpper))) with
  | some c => some c
  | none => texts.findSome? (fun t => scanMap (normalize_race_name t).data)

/-- The amended trial order, written from the corrected wording: for
each candidate text in turn — the stripped district text (when
nonempty), the stripped office text, their `" - "` concatenation — the
resolver tests raw containment and then normalized containment before
moving on; if every text fails it finally tests the uppercased
`office + " " + district` with pipes replaced by spaces and whitespace
collapsed, raw then normalized. -/
def matchSpecAmended (office district : String) : Option String :=
  let distOk := district ≠ "" && pyStrip district ≠ ""
  let texts :=
    (if distOk then [pyStrip district] else []) ++
    [pyStrip office] ++
    (if distOk then [pyStrip office ++ " - " ++ pyStrip district] else [])
  match texts.findSome? (fun t =>
      (scanMap (pyStripL (t.data.map Char.toUpper))).orElse
        (fun _ => scanMap (normalize_race_name t).data)) with
  | some c => some c
  | none =>
    let combined : String :=
      ⟨collapseWsL (pyStrip (charReplace '|' ' ' (pyUpper (office ++ " " ++ district)))).data⟩
    (scanMap combined.data).orElse
      (fun _ => scanMap (normalize_race_name combined).data)

/-- The grouping key of a candidate aggregate. -/
def keyOfCand (a : Cand) : AggKey :=
  (a.county, a.office, a.district, a.candidate, a.party)

/-- The exact totals of the group of `k` within `recs`: the sum of
the members' `total_votes` and of their parsed sub-total
contributions. -/
def groupTot (recs : List Rec) (k : AggKey) : Totals :=
  recs.foldl (fun t r => if aggKey r = k then addTot t (totOf r) else t) ⟨0, 0, 0, 0⟩

/-- Whether a record reports its early-voting sub-total at all: the
field is not the empty string (the absent marker of every extraction
layout). -/
def reportsEV (r : Rec) : Bool :=
  r.early_voting ≠ FieldVal.s ""

/-- Claim C4 as stated: an aggregate's early-voting sub-total is
absent exactly when no member of its group reported one, so a group
whose members reported only zeros must still report a (zero)
sub-total. -/
def C4Claimed : Prop :=
  ∀ recs : List Rec, ∀ a ∈ aggregate_to_candidates recs,
    (a.early_voting = none ↔
      ∀ r ∈ recs, aggKey r = keyOfCand a → reportsEV r = false)

/-- Claim C3 as stated: the Merge Engine, run a second time against
the same authoritative table and the same source data, produces an
empty staged output — since the engine is a pure function of its
inputs, the second run returns exactly the first run's output, so the
claim asserts every successful run stages nothing. -/
def C3Claimed : Prop :=
  ∀ master ccd src R, runPipeline master ccd src = some R → R.newRows = []

/-- The canonical text of a staged row's identifier or year column:
the column with its trailing `".0"` removed. -/
def stripDot (s : String) : String :=
  ⟨s.data.dropLast.dropLast⟩

/-- The (canonical identifier, year) pair a staged row denotes. -/
def rowPair (r : StagedRow) : String × String :=
  (stripDot r.ctds_id, stripDot r.year)

/-- Claim C6 as stated: during Execute, a candidate aggregate
resolving to an identifier whose (identifier, year) pair is already
filled is discarded — no staged row carries that pair — and the event
is recorded in the structured match log. -/
def C6Claimed : Prop :=
  ∀ master ccd src L R cl y file cand c,
    loadMaster master = some L →
    runPipeline master ccd src = some R →
    (cl, y) ∈ sortedGapKeys L →
    src cl y = some file →
    cand ∈ aggregate_to_candidates (extract_records file.1 file.2 (countyDisplay cl)) →
    match_to_ctds cand.office cand.district (countyDisplay cl) = some c →
    (c, toString y) ∈ L.pairs →
    (∀ r ∈ R.newRows, rowPair r ≠ (c, toString y)) ∧
    (∃ e ∈ R.matchDetails, e.ctds = c ∧ e.year = y)

/-- Promotion of a staged row into the master table: the staged
columns the Load phase reads. -/
def toMasterRow (r : StagedRow) : MasterRow :=
  ⟨r.ctds_id, r.year, r.county, r.school_district⟩

/-- Boolean list inclusion of pair lists. -/
def subPairs (a b : List (String × String)) : Bool :=
  a.all (fun p => b.contains p)

/-- Boolean inclusion of the identifier key sets of two county maps. -/
def countyKeysSub (a b : List (String × String)) : Bool :=
  (assocKeys a).all (fun c => (assocKeys b).contains c)

/-- Do two county maps assign every identifier of the first map to the
same county-slug (`lower().replace(' ', '_')`) as the second? -/
def countyLowEquiv (a b : List (String × String)) : Bool :=
  (assocKeys a).all (fun c => lowRepl (lookupD a c) == lowRepl (lookupD b c))

/-- The header of the 2016–2024 standard layout, used by the concrete
test fixtures. -/
def fixFields : List String :=
  ["office", "district", "candidate", "party", "votes",
   "early_voting", "election_day", "provisional"]

/-- One row of the standard layout. -/
def fixRow (o d c p v ev ed pr : String) : Row :=
  [("office", o), ("district", d), ("candidate", c), ("party", p),
   ("votes", v), ("early_voting", ev), ("election_day", ed),
   ("provisional", pr)]

/-- A small authoritative table: Ganado (4157) filled for 2014 and
2018, Camp Verde (4470) filled for 2014, plus one row without an
identifier. -/
def masterW : List MasterRow :=
  [ ⟨"4157.0", "2014.0", "Apache", "Ganado USD"⟩
  , ⟨"4157.0", "2018.0", "Apache", "Ganado Unified School District"⟩
  , ⟨"4470.0", "2014.0", "Yavapai", "Camp Verde USD"⟩
  , ⟨"", "x", "Nowhere", "skip me"⟩ ]

/-- A small cross-reference directory for the fixtures. -/
def ccdW : String → Option (String × String) := fun c =>
  if c == "4157" then some ("Ganado Unified District", "0403690")
  else if c == "4470" then some ("Camp Verde Unified District", "0401620")
  else none

/-- Fixture source data: an Apache 2016 file with a Ganado race (two
candidates, metadata rows, an excluded bond question) and a Yavapai
2018 file with one Camp Verde candidate. -/
def srcW : String → Nat → Option SrcFile := fun cl y =>
  if cl == "apache" && y == 2016 then
    some (fixFields,
      [ fixRow "GANADO USD" "" "Jane Doe" "IND" "10" "4" "6" ""
      , fixRow "GANADO USD" "" "Jane Doe" "IND" "5" "" "5" ""
      , fixRow "GANADO USD" "" "Bill Moe" "" "3" "" "" ""
      , fixRow "GANADO USD" "" "WRITE-IN" "" "9" "" "" ""
      , fixRow "CHINLE USD BOND QUESTION" "" "YES" "" "44" "" "" "" ])
  else if cl == "yavapai" && y == 2018 then
    some (fixFields,
      [ fixRow "GOVERNING BOARD MEMBER" "CAMP VERDE USD #28" "Ann Alpha" "" "7" "7" "0" "0" ])
  else none

/-- The fixture master table after promoting the first run's staged
rows. -/
def masterW2 : List MasterRow :=
  masterW ++ ((loadMaster masterW).map
    (fun L => (pipelineFromLoad L ccdW srcW).newRows.map toMasterRow)).getD []

/-- An authoritative table where Chinle (4158) is already filled for
2016 while Ganado (4157) still lacks 2016, so the Apache 2016 gap key
is processed. -/
def masterC6 : List MasterRow :=
  [ ⟨"4157.0", "2014.0", "Apache", "Ganado USD"⟩
  , ⟨"4158.0", "2016.0", "Apache", "Chinle USD"⟩ ]

/-- Source data whose only race resolves to the already-filled Chinle
2016 pair. -/
def srcC6 : String → Nat → Option SrcFile := fun cl y =>
  if cl == "apache" && y == 2016 then
    some (fixFields, [ fixRow "CHINLE UNIFIED" "" "Solo Cand" "" "12" "" "" "" ])
  else none

/-- A single precinct record whose early-voting sub-total is reported
as the explicit string `"0"`. -/
def recC4 : Rec :=
  { county := "Yavapai", office := "GOVERNING BOARD MEMBER",
    district := "CAMP VERDE USD #28", candidate := "John Roe", party := "",
    total_votes := 15, early_voting := .s "0", election_day := .s "",
    provisional := .s "" }

/-- The loaded state of the fixture master table. -/
def loadW : LoadState :=
  (loadMaster masterW).getD ⟨[], [], []⟩

/-- The loaded state of the promoted fixture master table. -/
def loadW2 : LoadState :=
  (loadMaster masterW2).getD ⟨[], [], []⟩

/-- The loaded state of the already-filled-pair fixture table. -/
def loadC6 : LoadState :=
  (loadMaster masterC6).getD ⟨[], [], []⟩

/-- The first fixture run's results. -/
def runW : RunResult :=
  (runPipeline masterW ccdW srcW).getD ⟨[], [], []⟩

/-- The source file of the already-filled-pair fixture. -/
def fileC6 : SrcFile :=
  (fixFields, [fixRow "CHINLE UNIFIED" "" "Solo Cand" "" "12" "" "" ""])

/-- The single aggregate the already-filled-pair fixture produces. -/
def candC6 : Cand :=
  { county := "Apache", office := "CHINLE UNIFIED", district := "",
    candidate := "Solo Cand", party := "", total_votes := 12,
    early_voting := none, election_day := none, provisional := none }

/-- The aggregate produced from `recC4` alone: its early-voting
sub-total comes out absent although the member reported `"0"`. -/
def aggC4 : Cand :=
  { county := "Yavapai", office := "GOVERNING BOARD MEMBER",
    district := "CAMP VERDE USD #28", candidate := "John Roe", party := "",
    total_votes := 15, early_voting := none, election_day := none,
    provisional := none }

/-- The precinct record extracted from the `fileC6` fixture. -/
def recC8 : Rec :=
  { county := "Apache", office := "CHINLE UNIFIED", district := "",
    candidate := "Solo Cand", party := "", total_votes := 12,
    early_voting := .s "", election_day := .s "", provisional := .s "" }

theorem insSorted_perm (le : α → α → Bool) (a : α) :
    ∀ l : List α, (insSorted le a l).Perm (a :: l)
  | [] => List.Perm.refl _
  | b :: t => by
    unfold insSorted
    by_cases h : le a b = true
    · simp [h]
    · simp only [h]
      exact ((insSorted_perm le a t).cons b).trans (List.Perm.swap a b t)

theorem sortByLe_perm (le : α → α → Bool) :
    ∀ l : List α, (sortByLe le l).Perm l
  | [] => List.Perm.refl _
  | a :: t => by
    unfold sortByLe
    simp only [List.foldr_cons]
    exact (insSorted_perm le a _).trans ((sortByLe_perm le t).cons a)

theorem mem_sortByLe {le : α → α → Bool} {l : List α} {a : α} :
    a ∈ sortByLe le l ↔ a ∈ l :=
  (sortByLe_perm le l).mem_iff

theorem mem_dedupFirst [DecidableEq α] {l : List α} {a : α} :
    a ∈ dedupFirst l ↔ a ∈ l := by
  induction l with
  | nil => simp [dedupFirst]
  | cons b t ih =>
    simp only [dedupFirst, List.mem_cons]
    by_cases h : a = b
    · simp [h]
    · simp [h, List.mem_filter, ih]

theorem stripDot_append (s : String) : stripDot (s ++ ".0") = s := by
  have hdata : (s ++ ".0").data = s.data ++ ['.', '0'] := String.data_append s ".0"
  have h1 : (s.data ++ ['.', '0']).dropLast = s.data ++ ['.'] := by
    have : s.data ++ ['.', '0'] = (s.data ++ ['.']) ++ ['0'] := by simp
    rw [this, List.dropLast_concat]
  have h2 : (s.data ++ ['.']).dropLast = s.data := List.dropLast_concat ..
  show (⟨(s ++ ".0").data.dropLast.dropLast⟩ : String) = s
  rw [hdata, h1, h2]

theorem addTot_zero_left (t : Totals) : addTot ⟨0, 0, 0, 0⟩ t = t := by
  cases t; simp [addTot]

theorem addTot_zero_right (t : Totals) : addTot t ⟨0, 0, 0, 0⟩ = t := by
  cases t; simp [addTot]

theorem addTot_assoc (a b c : Totals) :
    addTot (addTot a b) c = addTot a (addTot b c) := by
  cases a; cases b; cases c; simp [addTot, Int.add_assoc]

/-- Folding the per-group accumulation step from an arbitrary initial
total adds the group total of the whole list. -/
theorem foldl_groupStep (k : AggKey) :
    ∀ (recs : List Rec) (t0 : Totals),
      recs.foldl (fun t r => if aggKey r = k then addTot t (totOf r) else t) t0 =
        addTot t0 (groupTot recs k)
  | [], t0 => by simp [groupTot, addTot_zero_right]
  | r :: rs, t0 => by
    simp only [groupTot, List.foldl_cons]
    rw [foldl_groupStep k rs, foldl_groupStep k rs]
    by_cases h : aggKey r = k
    · simp [h, addTot_zero_left, addTot_assoc]
    · simp [h, addTot_zero_left]

/-- Association-list lookup over a cons cell, with a propositional
guard. -/
theorem lookup_cons' (k a : AggKey) (b : Totals) (l : List (AggKey × Totals)) :
    List.lookup k ((a, b) :: l) = if k = a then some b else List.lookup k l := by
  by_cases h : k = a
  · subst h; simp [List.lookup_cons]
  · have h' : (k == a) = false := beq_eq_false_iff_ne.mpr h
    simp [List.lookup_cons, h', h]

theorem lookup_aggUpsert (r : Rec) (k : AggKey) (m : List (AggKey × Totals)) :
    (aggUpsert m r).lookup k =
      if k = aggKey r then
        some (match m.lookup k with
              | some t => addTot t (totOf r)
              | none => totOf r)
      else m.lookup k := by
  induction m with
  | nil =>
    by_cases h : k = aggKey r <;>
      simp [aggUpsert, lookup_cons', h]
  | cons hd tl ih =>
    obtain ⟨a, b⟩ := hd
    simp only [aggUpsert]
    by_cases h1 : a = aggKey r
    · rw [if_pos h1, lookup_cons', lookup_cons']
      by_cases h2 : k = a
      · simp [h2, h1]
      · have h3 : ¬ k = aggKey r := h1 ▸ h2
        simp [h2, h3]
    · rw [if_neg h1, lookup_cons', lookup_cons']
      by_cases h2 : k = a
      · have h3 : ¬ k = aggKey r := fun h => h1 (h2 ▸ h)
        simp [h2, h3, h1]
      · simp [h2, ih]

/-- Lookup after the whole accumulation pass, from an arbitrary
accumulator: an existing entry gains the group total, an absent one
appears exactly when the key occurs in the records. -/
theorem lookup_foldl_aggUpsert (k : AggKey) :
    ∀ (recs : List Rec) (m : List (AggKey × Totals)),
      (recs.foldl aggUpsert m).lookup k =
        match m.lookup k with
        | some t => some (addTot t (groupTot recs k))
        | none =>
          if k ∈ recs.map aggKey then some (groupTot recs k) else none
  | [], m => by
    cases h : m.lookup k <;> simp [h, groupTot, addTot_zero_right]
  | r :: rs, m => by
    simp only [List.foldl_cons]
    rw [lookup_foldl_aggUpsert k rs (aggUpsert m r), lookup_aggUpsert]
    have hG : groupTot (r :: rs) k =
        if aggKey r = k then addTot (totOf r) (groupTot rs k)
        else groupTot rs k := by
      simp only [groupTot, List.foldl_cons]
      by_cases h : aggKey r = k
      · rw [if_pos h, if_pos h, foldl_groupStep, addTot_zero_left]
        rfl
      · rw [if_neg h, if_neg h]
    by_cases h1 : k = aggKey r
    · rw [if_pos h1, hG, if_pos h1.symm]
      cases h2 : m.lookup k with
      | some t => simp [addTot_assoc]
      | none => simp [h1]
    · have h1' : aggKey r ≠ k := fun h => h1 h.symm
      rw [if_neg h1, hG, if_neg h1']
      cases h2 : m.lookup k with
      | some t => simp
      | none => simp [h1]

/-- The keys of the accumulator after an upsert. -/
theorem keys_aggUpsert (r : Rec) :
    ∀ m : List (AggKey × Totals),
      (aggUpsert m r).map Prod.fst =
        if aggKey r ∈ m.map Prod.fst then m.map Prod.fst
        else m.map Prod.fst ++ [aggKey r]
  | [] => by simp [aggUpsert]
  | (a, b) :: tl => by
    simp only [aggUpsert]
    by_cases h1 : a = aggKey r
    · simp [h1]
    · have h1' : ¬ aggKey r = a := fun h => h1 h.symm
      simp only [if_neg h1, List.map_cons, keys_aggUpsert r tl,
        List.mem_cons]
      by_cases h2 : aggKey r ∈ tl.map Prod.fst <;> simp [h2, h1']

theorem nodup_keys_aggUpsert (r : Rec) (m : List (AggKey × Totals))
    (h : (m.map Prod.fst).Nodup) : ((aggUpsert m r).map Prod.fst).Nodup := by
  rw [keys_aggUpsert]
  by_cases h2 : aggKey r ∈ m.map Prod.fst
  · rw [if_pos h2]; exact h
  · rw [if_neg h2, List.nodup_append]
    refine ⟨h, List.nodup_singleton _, ?_⟩
    intro a ha hb
    simp only [List.mem_singleton] at hb
    exact h2 (hb ▸ ha)

theorem nodup_keys_foldl :
    ∀ (recs : List Rec) (m : List (AggKey × Totals)),
      (m.map Prod.fst).Nodup → ((recs.foldl aggUpsert m).map Prod.fst).Nodup
  | [], m, h => h
  | r :: rs, m, h =>
    nodup_keys_foldl rs (aggUpsert m r) (nodup_keys_aggUpsert r m h)

/-- In an association list with duplicate-free keys, membership
determines lookup. -/
theorem lookup_of_mem_nodup :
    ∀ (m : List (AggKey × Totals)) (k : AggKey) (t : Totals),
      (m.map Prod.fst).Nodup → (k, t) ∈ m → m.lookup k = some t
  | [], _, _, _, h => by simp at h
  | (a, b) :: tl, k, t, hnd, hmem => by
    rw [lookup_cons']
    rcases List.mem_cons.mp hmem with heq | htl
    · injection heq with h1 h2
      subst h1; subst h2
      rw [if_pos rfl]
    · by_cases h2 : k = a
      · exfalso
        have ha : a ∈ tl.map Prod.fst :=
          List.mem_map.mpr ⟨(k, t), htl, by simp [h2]⟩
        exact (List.nodup_cons.mp (by simpa using hnd)).1 ha
      · exact if_neg h2 ▸ lookup_of_mem_nodup tl k t
          (List.nodup_cons.mp (by simpa using hnd)).2 htl

/-- Every entry of the accumulation pass carries exactly its group's
totals, and its key occurs among the records. -/
theorem mem_aggPass (recs : List Rec) (k : AggKey) (t : Totals)
    (h : (k, t) ∈ aggPass recs) :
    t = groupTot recs k ∧ k ∈ recs.map aggKey := by
  have hnd : ((aggPass recs).map Prod.fst).Nodup :=
    nodup_keys_foldl recs [] (by simp)
  have hl : (aggPass recs).lookup k = some t :=
    lookup_of_mem_nodup _ k t hnd h
  rw [aggPass, lookup_foldl_aggUpsert] at hl
  simp only [List.lookup_nil] at hl
  by_cases h2 : k ∈ recs.map aggKey
  · rw [if_pos h2] at hl
    exact ⟨(Option.some.injEq .. ▸ hl).symm, h2⟩
  · rw [if_neg h2] at hl
    exact absurd hl (by simp)

/-- An upsert adds exactly the record's votes to the accumulator's
total. -/
theorem sumTv_aggUpsert (r : Rec) :
    ∀ m : List (AggKey × Totals),
      ((aggUpsert m r).map (fun e => e.2.tv)).sum =
        ((m.map (fun e => e.2.tv)).sum + r.total_votes)
  | [] => by simp [aggUpsert, totOf]
  | (a, b) :: tl => by
    simp only [aggUpsert]
    by_cases h1 : a = aggKey r
    · simp [h1, addTot, totOf]
      ring
    · simp [h1, sumTv_aggUpsert r tl]
      ring

/-- The accumulation pass preserves the total vote sum. -/
theorem sumTv_foldl :
    ∀ (recs : List Rec) (m : List (AggKey × Totals)),
      (((recs.foldl aggUpsert m).map (fun e => e.2.tv)).sum) =
        ((m.map (fun e => e.2.tv)).sum + (recs.map Rec.total_votes).sum)
  | [], m => by simp
  | r :: rs, m => by
    simp only [List.foldl_cons, List.map_cons, List.sum_cons]
    rw [sumTv_foldl rs (aggUpsert m r), sumTv_aggUpsert]
    ring

/-- Membership in the final sorted aggregate list, decomposed into an
accumulator entry. -/
theorem mem_aggregate (recs : List Rec) (a : Cand)
    (h : a ∈ aggregate_to_candidates recs) :
    ∃ k t, (k, t) ∈ aggPass recs ∧ a = candOfItem k t := by
  rw [aggregate_to_candidates] at h
  obtain ⟨kt, hmem, heq⟩ := List.mem_map.mp h
  exact ⟨kt.1, kt.2, mem_sortByLe.mp hmem, heq.symm⟩

theorem keyOfCand_candOfItem (k : AggKey) (t : Totals) :
    keyOfCand (candOfItem k t) = k := by
  obtain ⟨a, b, c, d, e⟩ := k
  rfl

/-- Every aggregate carries exactly its group's totals: the central
correctness fact of `aggregate_to_candidates`. -/
theorem aggregate_totals (recs : List Rec) (a : Cand)
    (h : a ∈ aggregate_to_candidates recs) :
    a.total_votes = (groupTot recs (keyOfCand a)).tv ∧
    a.early_voting = (if (groupTot recs (keyOfCand a)).ev > 0
      then some (groupTot recs (keyOfCand a)).ev else none) ∧
    a.election_day = (if (groupTot recs (keyOfCand a)).ed > 0
      then some (groupTot recs (keyOfCand a)).ed else none) ∧
    a.provisional = (if (groupTot recs (keyOfCand a)).pr > 0
      then some (groupTot recs (keyOfCand a)).pr else none) ∧
    keyOfCand a ∈ recs.map aggKey := by
  obtain ⟨k, t, hmem, heq⟩ := mem_aggregate recs a h
  obtain ⟨hT, hK⟩ := mem_aggPass recs k t hmem
  subst heq
  rw [keyOfCand_candOfItem, ← hT]
  exact ⟨rfl, rfl, rfl, rfl, keyOfCand_candOfItem k t ▸ hK⟩

/-- The global vote-sum preservation of the aggregator. -/
theorem aggregate_sum (recs : List Rec) :
    ((aggregate_to_candidates recs).map Cand.total_votes).sum =
      (recs.map Rec.total_votes).sum := by
  rw [aggregate_to_candidates, List.map_map]
  have h1 : (Cand.total_votes ∘ fun kt : AggKey × Totals => candOfItem kt.1 kt.2) =
      fun kt : AggKey × Totals => kt.2.tv := by
    funext kt; rfl
  rw [h1]
  have h2 := ((sortByLe_perm aggItemLe (aggPass recs)).map
    (fun kt : AggKey × Totals => kt.2.tv)).sum_eq
  rw [h2]
  have h3 := sumTv_foldl recs []
  simpa [aggPass] using h3

theorem mem_extractRows1 (rows : List Row) (cn : String) (r : Rec)
    (h : r ∈ extractRows1 rows cn) :
    0 < r.total_votes ∧ is_metadata_row r.candidate = false := by
  rw [extractRows1, List.mem_flatMap] at h
  obtain ⟨row, _, hr⟩ := h
  simp only at hr
  split_ifs at hr with h1 h2 h3 <;> simp at hr
  subst hr
  refine ⟨?_, ?_⟩
  · show 0 < pyVotes (rget row "vote_total")
    omega
  · show is_metadata_row (rget row "choice_name") = false
    simpa using h2

theorem mem_extractRows2 (rows : List Row) (cn : String) (r : Rec)
    (h : r ∈ extractRows2 rows cn) :
    0 < r.total_votes ∧ is_metadata_row r.candidate = false := by
  rw [extractRows2, List.mem_flatMap] at h
  obtain ⟨row, _, hr⟩ := h
  simp only at hr
  split_ifs at hr with h1 h2 h3 <;> simp at hr
  all_goals subst hr
  all_goals refine ⟨?_, ?_⟩
  all_goals first
  | (show 0 < pyVotes (rget row "votes"); omega)
  | (show is_metadata_row (rget row "candidate name") = false; simpa using h2)

theorem mem_extractRows3 (rows : List Row) (cn : String) (r : Rec)
    (h : r ∈ extractRows3 rows cn) :
    0 < r.total_votes ∧ is_metadata_row r.candidate = false := by
  rw [extractRows3, List.mem_flatMap] at h
  obtain ⟨row, _, hr⟩ := h
  simp only at hr
  split_ifs at hr with h0 h1 h2 h3 <;> simp at hr
  subst hr
  refine ⟨?_, ?_⟩
  · show 0 < pyVotes (rget row "count")
    omega
  · show is_metadata_row (rget row "candidate") = false
    simpa using h2

theorem mem_extractRows4 (fields : List String) (rows : List Row)
    (cn : String) (r : Rec) (h : r ∈ extractRows4 fields rows cn) :
    0 < r.total_votes ∧ is_metadata_row r.candidate = false := by
  rw [extractRows4, List.mem_flatMap] at h
  obtain ⟨row, _, hr⟩ := h
  simp only at hr
  split_ifs at hr with h1 h2 h3 <;> simp at hr
  subst hr
  refine ⟨?_, ?_⟩
  · show 0 < pyVotes (rget row ((fields.find? (fun f => pyLower f == "vote_total")).getD ""))
    omega
  · show is_metadata_row (rget row ((fields.find? (fun f => pyLower f == "choice_name")).getD "")) = false
    simpa using h2

theorem mem_extractRows5 (rows : List Row) (cn : String) (r : Rec)
    (h : r ∈ extractRows5 rows cn) :
    0 < r.total_votes ∧ is_metadata_row r.candidate = false := by
  rw [extractRows5, List.mem_flatMap] at h
  obtain ⟨row, _, hr⟩ := h
  simp only at hr
  split_ifs at hr with h1 h2 h3 <;> simp at hr
  subst hr
  refine ⟨?_, ?_⟩
  · show 0 < pyVotes (rget row "votes")
    omega
  · show is_metadata_row (rget row "candidate") = false
    simpa using h2

/-- Every record the extractor emits has strictly positive votes and
a non-metadata candidate label, in every layout. -/
theorem extract_records_sound (fields : List String) (rows : List Row)
    (cn : String) (r : Rec) (h : r ∈ extract_records fields rows cn) :
    0 < r.total_votes ∧ is_metadata_row r.candidate = false := by
  rw [extract_records] at h
  by_cases h0 : fields.isEmpty
  · rw [if_pos h0] at h
    simp at h
  · rw [if_neg h0] at h
    simp only at h
    split_ifs at h with h1 h2 h3 h5
    · exact mem_extractRows1 rows cn r h
    · exact mem_extractRows2 rows cn r h
    · exact mem_extractRows3 rows cn r h
    · exact mem_extractRows5 rows cn r h
    · simp at h

/-- An aggregate's candidate label always comes from some input
record of its group. -/
theorem aggregate_candidate_origin (recs : List Rec) (a : Cand)
    (h : a ∈ aggregate_to_candidates recs) :
    ∃ r ∈ recs, r.candidate = a.candidate := by
  have hK := (aggregate_totals recs a h).2.2.2.2
  obtain ⟨r, hr, hk⟩ := List.mem_map.mp hK
  refine ⟨r, hr, ?_⟩
  have : (aggKey r).2.2.2.1 = (keyOfCand a).2.2.2.1 := by rw [hk]
  simpa [aggKey, keyOfCand] using this

theorem rowPair_mkRow (L : LoadState) (ccd : String → Option (String × String))
    (cl : String) (y : Nat) (c : String) (cand : Cand) :
    rowPair (mkRow L ccd cl y c cand) = (c, toString y) := by
  show (stripDot (c ++ ".0"), stripDot (toString y ++ ".0")) = (c, toString y)
  rw [stripDot_append, stripDot_append]

/-- Every staged row a gap key produces denotes a pair outside the
run-start filled set: the final safety check of the Materialize
loop. -/
theorem processKey_rows_pair (L : LoadState) (ccd : String → Option (String × String))
    (src : String → Nat → Option SrcFile) (cl : String) (y : Nat) :
    ∀ r ∈ (processKey L ccd src cl y).1,
      rowPair r ∉ L.pairs ∧ (rowPair r).2 = toString y := by
  intro r hr
  rw [processKey] at hr
  cases hsrc : src cl y with
  | none => rw [hsrc] at hr; simp at hr
  | some file =>
    rw [hsrc] at hr
    simp only at hr
    split_ifs at hr with hempty
    · simp at hr
    · rw [List.mem_flatMap] at hr
      obtain ⟨e, hmem, hin⟩ := hr
      split_ifs at hin with hpair
      · simp at hin
      · obtain ⟨cand, _, heq⟩ := List.mem_map.mp hin
        subst heq
        rw [rowPair_mkRow]
        refine ⟨fun hmem2 => hpair ?_, rfl⟩
        exact (List.elem_iff).mpr hmem2

/-- Every pair a gap key marks as filled passed the same safety
check. -/
theorem processKey_pairs_notin (L : LoadState) (ccd : String → Option (String × String))
    (src : String → Nat → Option SrcFile) (cl : String) (y : Nat) :
    ∀ p ∈ (processKey L ccd src cl y).2.1, p ∉ L.pairs ∧ p.2 = toString y := by
  intro p hp
  rw [processKey] at hp
  cases hsrc : src cl y with
  | none => rw [hsrc] at hp; simp at hp
  | some file =>
    rw [hsrc] at hp
    simp only at hp
    split_ifs at hp with hempty
    · simp at hp
    · rw [List.mem_flatMap] at hp
      obtain ⟨e, hmem, hin⟩ := hp
      split_ifs at hin with hpair
      · simp at hin
      · simp only [List.mem_singleton] at hin
        subst hin
        exact ⟨fun hmem2 => hpair ((List.elem_iff).mpr hmem2), rfl⟩

/-- Every match-log entry a gap key records passed the same safety
check. -/
theorem processKey_log_notin (L : LoadState) (ccd : String → Option (String × String))
    (src : String → Nat → Option SrcFile) (cl : String) (y : Nat) :
    ∀ e ∈ (processKey L ccd src cl y).2.2, (e.ctds, toString e.year) ∉ L.pairs := by
  intro e he
  rw [processKey] at he
  cases hsrc : src cl y with
  | none => rw [hsrc] at he; simp at he
  | some file =>
    rw [hsrc] at he
    simp only at he
    split_ifs at he with hempty
    · simp at he
    · rw [List.mem_flatMap] at he
      obtain ⟨e', hmem, hin⟩ := he
      split_ifs at hin with hpair
      · simp at hin
      · simp only [List.mem_singleton] at hin
        subst hin
        exact fun hmem2 => hpair ((List.elem_iff).mpr hmem2)

/-- No staged row of a whole run denotes an already-filled pair. -/
theorem pipeline_rows_notin (L : LoadState) (ccd : String → Option (String × String))
    (src : String → Nat → Option SrcFile) :
    ∀ r ∈ (pipelineFromLoad L ccd src).newRows, rowPair r ∉ L.pairs := by
  intro r hr
  rw [pipelineFromLoad] at hr
  simp only [List.mem_flatMap] at hr
  obtain ⟨k, _, hk⟩ := hr
  exact (processKey_rows_pair L ccd src k.1 k.2 r hk).1

/-- No filled pair of a whole run was already filled at run start. -/
theorem pipeline_pairs_notin (L : LoadState) (ccd : String → Option (String × String))
    (src : String → Nat → Option SrcFile) :
    ∀ p ∈ (pipelineFromLoad L ccd src).filledPairs, p ∉ L.pairs := by
  intro p hp
  rw [pipelineFromLoad] at hp
  simp only [List.mem_flatMap] at hp
  obtain ⟨k, _, hk⟩ := hp
  exact (processKey_pairs_notin L ccd src k.1 k.2 p hk).1

/-- No match-log entry of a whole run records an already-filled
pair. -/
theorem pipeline_log_notin (L : LoadState) (ccd : String → Option (String × String))
    (src : String → Nat → Option SrcFile) :
    ∀ e ∈ (pipelineFromLoad L ccd src).matchDetails,
      (e.ctds, toString e.year) ∉ L.pairs := by
  intro e he
  rw [pipelineFromLoad] at he
  simp only [List.mem_flatMap] at he
  obtain ⟨k, _, hk⟩ := he
  exact processKey_log_notin L ccd src k.1 k.2 e hk

/-- A successful run is the pipeline applied to the loaded state. -/
theorem runPipeline_eq (master : List MasterRow)
    (ccd : String → Option (String × String))
    (src : String → Nat → Option SrcFile) (L : LoadState) (R : RunResult)
    (hL : loadMaster master = some L)
    (hR : runPipeline master ccd src = some R) :
    R = pipelineFromLoad L ccd src := by
  rw [runPipeline, hL, Option.map_some'] at hR
  exact (Option.some.injEq .. ▸ hR).symm

theorem mem_keys_appendMatched (c c' : String) (cand : Cand) :
    ∀ m : List (String × List Cand),
      (∃ e ∈ appendMatched m c cand, e.1 = c') ↔ (∃ e ∈ m, e.1 = c') ∨ c' = c
  | [] => by
    simp [appendMatched, eq_comm]
  | (k, cs) :: tl => by
    simp only [appendMatched]
    by_cases h : (k == c) = true
    · have hk : k = c := beq_iff_eq.mp h
      rw [if_pos h]
      subst hk
      simp only [List.exists_mem_cons_iff]
      constructor
      · rintro (hh | hh)
        · exact Or.inl (Or.inl hh)
        · exact Or.inl (Or.inr hh)
      · rintro ((hh | hh) | hh)
        · exact Or.inl hh
        · exact Or.inr hh
        · exact Or.inl hh.symm
    · rw [if_neg h]
      simp only [List.exists_mem_cons_iff]
      rw [show (∃ e ∈ appendMatched tl c cand, e.1 = c') ↔ _ from
        mem_keys_appendMatched c c' cand tl]
      exact (or_assoc ..).symm

/-- Keys of the Execute matching accumulator, from an arbitrary
initial accumulator. -/
theorem mem_keys_buildMatched_aux (needed : List String) (cd : String) (c : String) :
    ∀ (cands : List Cand) (m : List (String × List Cand)),
      (∃ e ∈ cands.foldl (fun m cand =>
          match match_to_ctds cand.office cand.district cd with
          | some c' => if c' ≠ "" && needed.contains c' then appendMatched m c' cand else m
          | none => m) m, e.1 = c) ↔
        ((∃ e ∈ m, e.1 = c) ∨
          ∃ cand ∈ cands, match_to_ctds cand.office cand.district cd = some c ∧
            c ≠ "" ∧ c ∈ needed)
  | [], m => by simp
  | cand :: rest, m => by
    simp only [List.foldl_cons]
    rw [mem_keys_buildMatched_aux needed cd c rest _]
    have hstep : ∀ m' : List (String × List Cand),
        (∃ e ∈ (match match_to_ctds cand.office cand.district cd with
        | some c' => if c' ≠ "" && needed.contains c' then appendMatched m' c' cand else m'
        | none => m'), e.1 = c) ↔
        ((∃ e ∈ m', e.1 = c) ∨
          (match_to_ctds cand.office cand.district cd = some c ∧ c ≠ "" ∧ c ∈ needed)) := by
      intro m'
      generalize match_to_ctds cand.office cand.district cd = mc
      cases mc with
      | none => simp
      | some c2 =>
        simp only
        by_cases hc : (decide (c2 ≠ "") && needed.contains c2) = true
        · rw [if_pos hc]
          rw [mem_keys_appendMatched]
          simp only [Bool.and_eq_true, decide_eq_true_eq, List.elem_iff] at hc
          constructor
          · rintro (he | rfl)
            · exact Or.inl he
            · exact Or.inr ⟨rfl, hc.1, hc.2⟩
          · rintro (he | ⟨hs, _, _⟩)
            · exact Or.inl he
            · exact Or.inr (Option.some.injEq .. ▸ hs).symm
        · rw [if_neg hc]
          simp only [Bool.and_eq_true, decide_eq_true_eq, List.elem_iff] at hc
          constructor
          · exact Or.inl
          · rintro (he | ⟨hs, hne, hmem⟩)
            · exact he
            · have hce : c2 = c := Option.some.injEq .. ▸ hs
              exact absurd ⟨hce ▸ hne, hce ▸ hmem⟩ hc
    rw [hstep m]
    simp only [List.exists_mem_cons_iff]
    exact or_assoc

theorem mem_keys_buildMatched (cands : List Cand) (needed : List String)
    (cd : String) (c : String) :
    (∃ e ∈ buildMatched cands needed cd, e.1 = c) ↔
      ∃ cand ∈ cands, match_to_ctds cand.office cand.district cd = some c ∧
        c ≠ "" ∧ c ∈ needed := by
  rw [buildMatched, mem_keys_buildMatched_aux]
  simp

theorem lowRepl_empty_iff (s : String) : lowRepl s = "" ↔ s = "" := by
  constructor
  · intro h
    have hd : (lowRepl s).data = [] := by rw [h]
    have hs : s.data = [] := by
      simpa [lowRepl, charReplace, pyLower] using hd
    cases s with
    | mk data => rw [show data = [] from hs]
  · intro h; subst h; rfl

theorem mem_neededCtds (L : LoadState) (cl : String) (y : Nat) (c : String) :
    c ∈ neededCtds L cl y ↔
      c ∈ assocKeys L.county ∧ lookupD L.county c ≠ "" ∧
      lowRepl (lookupD L.county c) = cl ∧ (c, toString y) ∉ L.pairs := by
  rw [neededCtds, List.mem_filter]
  simp only [Bool.and_eq_true, decide_eq_true_eq, beq_iff_eq,
    Bool.not_eq_true', ← Bool.not_eq_true, List.elem_iff]
  tauto

theorem mem_gapList (L : LoadState) (cl : String) (y : Nat) :
    (cl, y) ∈ gapList L ↔
      ∃ c ∈ assocKeys L.county, lookupD L.county c ≠ "" ∧ y ∈ electionYears ∧
        (c, toString y) ∉ L.pairs ∧ cl = lowRepl (lookupD L.county c) := by
  rw [gapList, mem_dedupFirst, List.mem_flatMap]
  constructor
  · rintro ⟨c, hc, hin⟩
    simp only at hin
    split_ifs at hin with hemp
    · simp at hin
    · rw [List.mem_filterMap] at hin
      obtain ⟨y', hy', hf⟩ := hin
      by_cases hp : L.pairs.contains (c, toString y') = true
      · rw [if_pos hp] at hf; simp at hf
      · rw [if_neg hp] at hf
        simp only [Option.some.injEq, Prod.mk.injEq] at hf
        refine ⟨c, hc, ?_, ?_, ?_, hf.1.symm⟩
        · intro he; rw [he] at hemp; simp at hemp
        · rw [← hf.2]; exact hy'
        · rw [← hf.2]; intro hmem; exact hp ((List.elem_iff).mpr hmem)
  · rintro ⟨c, hc, hne, hy, hnp, heq⟩
    refine ⟨c, hc, ?_⟩
    simp only
    rw [if_neg (by simpa using hne)]
    rw [List.mem_filterMap]
    refine ⟨y, hy, ?_⟩
    rw [if_neg (fun hcon => hnp ((List.elem_iff).mp hcon))]
    rw [heq]

theorem subPairs_mem {a b : List (String × String)} (h : subPairs a b = true)
    {p : String × String} (hp : p ∈ a) : p ∈ b := by
  rw [subPairs, List.all_eq_true] at h
  exact (List.elem_iff).mp (h p hp)

theorem countyKeysSub_mem {a b : List (String × String)}
    (h : countyKeysSub a b = true) {c : String} (hc : c ∈ assocKeys a) :
    c ∈ assocKeys b := by
  rw [countyKeysSub, List.all_eq_true] at h
  exact (List.elem_iff).mp (h c hc)

theorem countyLowEquiv_eq {a b : List (String × String)}
    (h : countyLowEquiv a b = true) {c : String} (hc : c ∈ assocKeys a) :
    lowRepl (lookupD a c) = lowRepl (lookupD b c) := by
  rw [countyLowEquiv, List.all_eq_true] at h
  exact beq_iff_eq.mp (h c hc)

/-- If a gap key's source yields an aggregate resolving to a
still-needed identifier, processing that key fills the identifier's
pair. -/
theorem processKey_fills (L : LoadState) (ccd : String → Option (String × String))
    (src : String → Nat → Option SrcFile) (cl : String) (y : Nat)
    (file : SrcFile) (c : String)
    (hsrc : src cl y = some file)
    (hne : (extract_records file.1 file.2 (countyDisplay cl)).isEmpty = false)
    (hres : ∃ cand ∈ aggregate_to_candidates
        (extract_records file.1 file.2 (countyDisplay cl)),
      match_to_ctds cand.office cand.district (countyDisplay cl) = some c ∧ c ≠ "")
    (hneed : c ∈ neededCtds L cl y) :
    (c, toString y) ∈ (processKey L ccd src cl y).2.1 := by
  rw [processKey, hsrc]
  simp only
  rw [if_neg (by simp [hne])]
  have hkey : ∃ e ∈ buildMatched
      (aggregate_to_candidates (extract_records file.1 file.2 (countyDisplay cl)))
      (neededCtds L cl y) (countyDisplay cl), e.1 = c := by
    rw [mem_keys_buildMatched]
    obtain ⟨cand, hc1, hc2, hc3⟩ := hres
    exact ⟨cand, hc1, hc2, hc3, hneed⟩
  obtain ⟨e, he, hec⟩ := hkey
  rw [List.mem_flatMap]
  refine ⟨e, he, ?_⟩
  have hnp : (c, toString y) ∉ L.pairs := ((mem_neededCtds L cl y c).mp hneed).2.2.2
  rw [hec, if_neg (fun hcon => hnp ((List.elem_iff).mp hcon))]
  simp

/-- The second-run emptiness core: against a filled set that includes
both the first load's pairs and everything the first run filled, with
the same identifiers grouped into the same county slugs, the engine
stages nothing. -/
theorem pipeline_second_empty (L1 L2 : LoadState)
    (ccd : String → Option (String × String))
    (src : String → Nat → Option SrcFile)
    (hp1 : subPairs L1.pairs L2.pairs = true)
    (hp3 : subPairs (pipelineFromLoad L1 ccd src).filledPairs L2.pairs = true)
    (hk : countyKeysSub L2.county L1.county = true)
    (hc : countyLowEquiv L2.county L1.county = true) :
    (pipelineFromLoad L2 ccd src).newRows = [] := by
  rw [List.eq_nil_iff_forall_not_mem]
  intro r hr
  rw [pipelineFromLoad] at hr
  simp only [List.mem_flatMap] at hr
  obtain ⟨k, hkmem, hpk⟩ := hr
  obtain ⟨cl, y⟩ := k
  have hy : y ∈ electionYears := by
    rw [sortedGapKeys, mem_sortByLe, mem_gapList] at hkmem
    obtain ⟨_, _, _, hy, _, _⟩ := hkmem
    exact hy
  rw [processKey] at hpk
  cases hsrc : src cl y with
  | none => rw [hsrc] at hpk; simp at hpk
  | some file =>
    rw [hsrc] at hpk
    simp only at hpk
    by_cases hemp : (extract_records file.1 file.2 (countyDisplay cl)).isEmpty
    · rw [if_pos hemp] at hpk; simp at hpk
    · rw [if_neg hemp] at hpk
      rw [List.mem_flatMap] at hpk
      obtain ⟨e, he, _⟩ := hpk
      have hkeys : ∃ e' ∈ buildMatched
          (aggregate_to_candidates (extract_records file.1 file.2 (countyDisplay cl)))
          (neededCtds L2 cl y) (countyDisplay cl), e'.1 = e.1 := ⟨e, he, rfl⟩
      rw [mem_keys_buildMatched] at hkeys
      obtain ⟨cand, hcand, hm, hcne, hcneed⟩ := hkeys
      rw [mem_neededCtds] at hcneed
      obtain ⟨hck2, hcnemp2, hcl2, hnp2⟩ := hcneed
      have hck1 : e.1 ∈ assocKeys L1.county := countyKeysSub_mem hk hck2
      have hcEq : lowRepl (lookupD L2.county e.1) = lowRepl (lookupD L1.county e.1) :=
        countyLowEquiv_eq hc hck2
      have hcnemp1 : lookupD L1.county e.1 ≠ "" := by
        intro h0
        apply hcnemp2
        rw [← lowRepl_empty_iff]
        rw [hcEq, h0]
        rfl
      have hnp1 : (e.1, toString y) ∉ L1.pairs := fun hm1 => hnp2 (subPairs_mem hp1 hm1)
      have hneed1 : e.1 ∈ neededCtds L1 cl y :=
        (mem_neededCtds L1 cl y e.1).mpr
          ⟨hck1, hcnemp1, by rw [← hcEq]; exact hcl2, hnp1⟩
      have hkey1 : (cl, y) ∈ sortedGapKeys L1 := by
        rw [sortedGapKeys, mem_sortByLe, mem_gapList]
        refine ⟨e.1, hck1, hcnemp1, hy, hnp1, ?_⟩
        rw [← hcEq]; exact hcl2.symm
      have hfill : (e.1, toString y) ∈ (processKey L1 ccd src cl y).2.1 :=
        processKey_fills L1 ccd src cl y file e.1 hsrc
          (by simpa using hemp) ⟨cand, hcand, hm, hcne⟩ hneed1
      have hF1 : (e.1, toString y) ∈ (pipelineFromLoad L1 ccd src).filledPairs := by
        rw [pipelineFromLoad]
        exact List.mem_flatMap.mpr ⟨(cl, y), hkey1, hfill⟩
      exact hnp2 (subPairs_mem hp3 hF1)

theorem tryTexts_eq_findSome : ∀ ts : List String,
    tryTexts ts = ts.findSome? (fun t =>
      (scanMap (pyStripL (t.data.map Char.toUpper))).orElse
        (fun _ => scanMap (normalize_race_name t).data))
  | [] => rfl
  | t :: rest => by
    have heq : tryTexts (t :: rest) =
        match scanMap (pyStripL (t.data.map Char.toUpper)) with
        | some c => some c
        | none =>
          match scanMap (normalize_race_name t).data with
          | some c => some c
          | none => tryTexts rest := rfl
    rw [heq, List.findSome?_cons, tryTexts_eq_findSome rest]
    generalize scanMap (pyStripL (t.data.map Char.toUpper)) = o1
    generalize scanMap (normalize_race_name t).data = o2
    cases o1 <;> cases o2 <;> simp [Option.orElse]

/-- C7 (amended): the source resolver equals the amended trial-order
description — per text raw-then-normalized, district before office
before concatenation, then the pipe-stripped combined text. -/
theorem C7_trial_order (office district county : String) :
    match_to_ctds office district county = matchSpecAmended office district := by
  unfold match_to_ctds matchSpecAmended
  simp only
  rw [tryTexts_eq_findSome]
  have hinner : ∀ a b : Option String,
      (match a with
       | some c => some c
       | none => match b with | some c => some c | none => none) =
      a.orElse (fun _ => b) := by
    intro a b
    cases a <;> cases b <;> rfl
  generalize scanMap
      (collapseWsL (pyStrip (charReplace '|' ' ' (pyUpper (office ++ " " ++ district)))).data) = a
  generalize scanMap (normalize_race_name
      (⟨collapseWsL (pyStrip (charReplace '|' ' ' (pyUpper (office ++ " " ++ district)))).data⟩ :
        String)).data = b
  generalize List.findSome?
      (fun t => (scanMap (pyStripL (List.map Char.toUpper t.data))).orElse
        (fun _ => scanMap (normalize_race_name t).data))
      ((if (decide (district ≠ "") && decide (pyStrip district ≠ "")) = true
          then [pyStrip district] else []) ++ [pyStrip office] ++
        (if (decide (district ≠ "") && decide (pyStrip district ≠ "")) = true
          then [pyStrip office ++ " - " ++ pyStrip district] else [])) = o
  cases o with
  | some c => rfl
  | none => exact hinner a b

/-- C1: No-overwrite invariant — every row the Merge Engine stages
denotes a (canonical identifier, year) pair absent from the
authoritative table's filled set at run start, and the emitted filled
pairs are disjoint from that set. -/
theorem C1_no_overwrite (master : List MasterRow)
    (ccd : String → Option (String × String))
    (src : String → Nat → Option SrcFile) (L : LoadState) (R : RunResult)
    (hL : loadMaster master = some L)
    (hR : runPipeline master ccd src = some R) :
    (∀ r ∈ R.newRows, rowPair r ∉ L.pairs) ∧
    (∀ p ∈ R.filledPairs, p ∉ L.pairs) := by
  rw [runPipeline_eq master ccd src L R hL hR]
  exact ⟨pipeline_rows_notin L ccd src, pipeline_pairs_notin L ccd src⟩

set_option maxRecDepth 100000 in
theorem C1_no_overwrite_witness :
    loadMaster masterW = some loadW ∧
    runPipeline masterW ccdW srcW = some runW ∧
    runW.newRows ≠ [] ∧
    (∀ r ∈ runW.newRows, rowPair r ∉ loadW.pairs) ∧
    (∀ p ∈ runW.filledPairs, p ∉ loadW.pairs) :=
  ⟨by decide, by decide, by decide,
   (C1_no_overwrite masterW ccdW srcW loadW runW (by decide) (by decide)).1,
   (C1_no_overwrite masterW ccdW srcW loadW runW (by decide) (by decide)).2⟩

/-- C2: Aggregation correctness — the aggregates' total votes sum to
the input records' total votes, and each aggregate's total equals the
exact sum of its group's member votes. -/
theorem C2_aggregation_correct (recs : List Rec) :
    ((aggregate_to_candidates recs).map Cand.total_votes).sum =
      (recs.map Rec.total_votes).sum ∧
    ∀ a ∈ aggregate_to_candidates recs,
      a.total_votes = (groupTot recs (keyOfCand a)).tv :=
  ⟨aggregate_sum recs, fun a h => (aggregate_totals recs a h).1⟩

set_option maxRecDepth 100000 in
theorem C2_aggregation_correct_witness :
    ((aggregate_to_candidates [recC4]).map Cand.total_votes).sum =
      ([recC4].map Rec.total_votes).sum ∧
    aggC4.total_votes = (groupTot [recC4] (keyOfCand aggC4)).tv :=
  ⟨(C2_aggregation_correct [recC4]).1,
   (C2_aggregation_correct [recC4]).2 aggC4 (by decide)⟩

set_option maxRecDepth 1000000 in
/-- C3 (counterexample): the Merge Engine is a pure function of the
authoritative table and source data, so a second run against the very
same inputs returns the first run's output again; on the fixture that
output has three rows, not zero, refuting the claim as stated. -/
theorem C3_counterexample :
    ((runPipeline masterW ccdW srcW).map (fun R => R.newRows.length) = some 3) ∧
    ¬ C3Claimed := by
  have h1 : (runPipeline masterW ccdW srcW).map (fun R => R.newRows.length) = some 3 := by
    decide
  refine ⟨h1, fun h => ?_⟩
  cases hr : runPipeline masterW ccdW srcW with
  | none => rw [hr] at h1; simp at h1
  | some R =>
    have h0 := h masterW ccdW srcW R hr
    rw [hr, Option.map_some'] at h1
    rw [h0] at h1
    simp at h1

/-- C3 (amended): running the Merge Engine a second time, against the
authoritative table extended with the first run's staged rows (so its
loaded pair set is the old set plus the first run's filled pairs, and
its identifiers carry the same county slugs), with the same source
data, produces an empty staged output. -/
theorem C3_run_after_promotion (m1 m2 : List MasterRow)
    (ccd : String → Option (String × String))
    (src : String → Nat → Option SrcFile) (L1 L2 : LoadState) (R2 : RunResult)
    (h1 : loadMaster m1 = some L1)
    (h2 : loadMaster m2 = some L2)
    (hm2 : m2 = m1 ++ (pipelineFromLoad L1 ccd src).newRows.map toMasterRow)
    (hp1 : subPairs L1.pairs L2.pairs = true)
    (hp2 : subPairs L2.pairs
      (L1.pairs ++ (pipelineFromLoad L1 ccd src).filledPairs) = true)
    (hp3 : subPairs (pipelineFromLoad L1 ccd src).filledPairs L2.pairs = true)
    (hk : countyKeysSub L2.county L1.county = true)
    (hc : countyLowEquiv L2.county L1.county = true)
    (hr2 : runPipeline m2 ccd src = some R2) :
    R2.newRows = [] := by
  rw [runPipeline_eq m2 ccd src L2 R2 h2 hr2]
  exact pipeline_second_empty L1 L2 ccd src hp1 hp3 hk hc

set_option maxRecDepth 1000000 in
theorem C3_run_after_promotion_witness :
    loadMaster masterW = some loadW ∧
    loadMaster masterW2 = some loadW2 ∧
    masterW2 = masterW ++ (pipelineFromLoad loadW ccdW srcW).newRows.map toMasterRow ∧
    runPipeline masterW2 ccdW srcW = some ⟨[], [], []⟩ ∧
    (⟨[], [], []⟩ : RunResult).newRows = [] :=
  ⟨by decide, by decide, by decide, by decide,
   C3_run_after_promotion masterW masterW2 ccdW srcW loadW loadW2 ⟨[], [], []⟩
     (by decide) (by decide) (by decide) (by decide) (by decide) (by decide)
     (by decide) (by decide) (by decide)⟩

set_option maxRecDepth 100000 in
/-- C4 (counterexample): a single record reporting its early-voting
sub-total as the explicit string "0" yields an aggregate whose
early-voting sub-total is absent, although a member of the group
reported it — the code does not distinguish reported zero from not
reported. -/
theorem C4_counterexample : ¬ C4Claimed := by
  intro h
  have h2 := h [recC4] aggC4 (by decide)
  have h3 := (h2.mp (by decide)) recC4 (by decide) (by decide)
  exact absurd h3 (by decide)

/-- C4 (amended): each vote-method sub-total of an aggregate is
reported exactly when the parsed sum of its group members'
contributions is positive, and then equals that sum; a group whose
members report only zeros (or nothing, or unparseable text) gets an
absent sub-total. -/
theorem C4_subtotal_absence (recs : List Rec) :
    ∀ a ∈ aggregate_to_candidates recs,
      a.early_voting = (if (groupTot recs (keyOfCand a)).ev > 0
        then some (groupTot recs (keyOfCand a)).ev else none) ∧
      a.election_day = (if (groupTot recs (keyOfCand a)).ed > 0
        then some (groupTot recs (keyOfCand a)).ed else none) ∧
      a.provisional = (if (groupTot recs (keyOfCand a)).pr > 0
        then some (groupTot recs (keyOfCand a)).pr else none) :=
  fun a h => ⟨(aggregate_totals recs a h).2.1,
    (aggregate_totals recs a h).2.2.1, (aggregate_totals recs a h).2.2.2.1⟩

set_option maxRecDepth 100000 in
theorem C4_subtotal_absence_witness :
    aggC4 ∈ aggregate_to_candidates [recC4] ∧
    aggC4.early_voting = (if (groupTot [recC4] (keyOfCand aggC4)).ev > 0
      then some (groupTot [recC4] (keyOfCand aggC4)).ev else none) :=
  ⟨by decide, (C4_subtotal_absence [recC4] aggC4 (by decide)).1⟩

set_option maxRecDepth 1000000 in
/-- C5: Classifier precision on the four fixture office/district
strings, the last accepted because its text resolves to the Camp Verde
district (CTDS 4470) through the resolver. -/
theorem C5_classifier_fixtures :
    is_school_board_race "GOVERNING BOARD MEMBER" "CAMP VERDE USD #28" = true ∧
    is_school_board_race "BOND QUESTION" "CAMP VERDE USD #28" = false ∧
    is_school_board_race "FIRE DISTRICT BOARD" "" = false ∧
    is_school_board_race "CAMP VERDE USD #28" "" = true ∧
    match_to_ctds "CAMP VERDE USD #28" "" "" = some "4470" := by
  decide

set_option maxRecDepth 1000000 in
/-- C6 (counterexample): on the fixture whose only aggregate resolves
to the already-filled pair (4158, 2016), the run discards it but
records nothing — the match log is empty — so the claim's "logged as a
safety-check hit" conjunct fails. -/
theorem C6_counterexample : ¬ C6Claimed := by
  intro h
  have h2 := h masterC6 ccdW srcC6 loadC6 ⟨[], [], []⟩ "apache" 2016 fileC6 candC6
    "4158" (by decide) (by decide) (by decide) (by decide) (by decide) (by decide)
    (by decide)
  obtain ⟨-, e, he, -⟩ := h2
  simp at he

/-- C6 (amended): an aggregate resolving to an identifier whose
(identifier, year) pair is already filled is discarded — no staged row
carries that pair — and the discard is silent: no match-log entry
carries it either (the log records only newly filled pairs). -/
theorem C6_filled_pair_discarded (master : List MasterRow)
    (ccd : String → Option (String × String))
    (src : String → Nat → Option SrcFile) (L : LoadState) (R : RunResult)
    (cl : String) (y : Nat) (file : SrcFile) (cand : Cand) (c : String)
    (hL : loadMaster master = some L)
    (hR : runPipeline master ccd src = some R)
    (hkey : (cl, y) ∈ sortedGapKeys L)
    (hsrc : src cl y = some file)
    (hcand : cand ∈ aggregate_to_candidates
      (extract_records file.1 file.2 (countyDisplay cl)))
    (hmatch : match_to_ctds cand.office cand.district (countyDisplay cl) = some c)
    (hfilled : (c, toString y) ∈ L.pairs) :
    (∀ r ∈ R.newRows, rowPair r ≠ (c, toString y)) ∧
    (∀ e ∈ R.matchDetails, (e.ctds, toString e.year) ≠ (c, toString y)) := by
  rw [runPipeline_eq master ccd src L R hL hR]
  constructor
  · intro r hr heq
    exact pipeline_rows_notin L ccd src r hr (heq ▸ hfilled)
  · intro e he heq
    exact pipeline_log_notin L ccd src e he (heq ▸ hfilled)

set_option maxRecDepth 1000000 in
theorem C6_filled_pair_discarded_witness :
    (("4158", toString 2016) ∈ loadC6.pairs) ∧
    (∀ r ∈ (⟨[], [], []⟩ : RunResult).newRows,
      rowPair r ≠ ("4158", toString 2016)) ∧
    (∀ e ∈ (⟨[], [], []⟩ : RunResult).matchDetails,
      (e.ctds, toString e.year) ≠ ("4158", toString 2016)) :=
  ⟨by decide,
   (C6_filled_pair_discarded masterC6 ccdW srcC6 loadC6 ⟨[], [], []⟩ "apache" 2016
     fileC6 candC6 "4158" (by decide) (by decide) (by decide) (by decide)
     (by decide) (by decide) (by decide)).1,
   (C6_filled_pair_discarded masterC6 ccdW srcC6 loadC6 ⟨[], [], []⟩ "apache" 2016
     fileC6 candC6 "4158" (by decide) (by decide) (by decide) (by decide)
     (by decide) (by decide) (by decide)).2⟩

set_option maxRecDepth 1000000 in
/-- C7 (counterexample): with office "GANADO USD BOARD MEMBER" and
district "CONCHO ELEM. #6", the source resolver normalizes the
district text and matches Concho (4160) before ever trying the raw
office text, while the claimed all-raw-texts-first order matches
Ganado (4157) — so the claimed trial order does not describe the
code. -/
theorem C7_counterexample :
    match_to_ctds "GANADO USD BOARD MEMBER" "CONCHO ELEM. #6" "Apache" = some "4160" ∧
    matchSpecClaimed "GANADO USD BOARD MEMBER" "CONCHO ELEM. #6" = some "4157" ∧
    ¬ ∀ office district county,
        match_to_ctds office district county = matchSpecClaimed office district := by
  have h1 : match_to_ctds "GANADO USD BOARD MEMBER" "CONCHO ELEM. #6" "Apache" =
      some "4160" := by decide
  have h2 : matchSpecClaimed "GANADO USD BOARD MEMBER" "CONCHO ELEM. #6" =
      some "4157" := by decide
  refine ⟨h1, h2, fun h => ?_⟩
  have h3 := h "GANADO USD BOARD MEMBER" "CONCHO ELEM. #6" "Apache"
  rw [h1, h2] at h3
  simp at h3

/-- C8: Vote-count filtering — every record the extractor returns has
strictly positive total votes; rows whose count fails to parse are
assigned zero and dropped by the non-positivity guard rather than
raising. -/
theorem C8_positive_votes (fields : List String) (rows : List Row) (cn : String) :
    ∀ r ∈ extract_records fields rows cn, 0 < r.total_votes :=
  fun r h => (extract_records_sound fields rows cn r h).1

set_option maxRecDepth 1000000 in
theorem C8_positive_votes_witness :
    recC8 ∈ extract_records fixFields fileC6.2 (countyDisplay "apache") ∧
    0 < recC8.total_votes :=
  ⟨by decide,
   C8_positive_votes fixFields fileC6.2 (countyDisplay "apache") recC8 (by decide)⟩

/-- C9: Metadata-row exclusion — labels such as "REGISTERED VOTERS"
and "WRITE-IN" are classified as metadata, no extracted record carries
a metadata label, and hence no aggregate does either. -/
theorem C9_metadata_never_aggregated (fields : List String) (rows : List Row)
    (cn : String) :
    (∀ r ∈ extract_records fields rows cn, is_metadata_row r.candidate = false) ∧
    (∀ a ∈ aggregate_to_candidates (extract_records fields rows cn),
      is_metadata_row a.candidate = false) ∧
    is_metadata_row "REGISTERED VOTERS" = true ∧
    is_metadata_row "WRITE-IN" = true := by
  refine ⟨fun r h => (extract_records_sound fields rows cn r h).2, ?_, by decide, by decide⟩
  intro a ha
  obtain ⟨r, hr, hc⟩ := aggregate_candidate_origin (extract_records fields rows cn) a ha
  rw [← hc]
  exact (extract_records_sound fields rows cn r hr).2

set_option maxRecDepth 1000000 in
theorem C9_metadata_never_aggregated_witness :
    candC6 ∈ aggregate_to_candidates
      (extract_records fixFields fileC6.2 (countyDisplay "apache")) ∧
    is_metadata_row candC6.candidate = false :=
  ⟨by decide,
   (C9_metadata_never_aggregated fixFields fileC6.2 (countyDisplay "apache")).2.1
     candC6 (by decide)⟩

/-- C10: County-independence of resolution — `match_to_ctds` accepts a
county argument and never consults it, so the same office/district
texts resolve identically whatever county file they came from. -/
theorem C10_county_independence (office district c1 c2 : String) :
    match_to_ctds office district c1 = match_to_ctds office district c2 := rfl
